import Mathlib

/-
Verification of the BTCPay invoice-API client (src/server/plugins/btcpay.js)
and the Auth.js document-store adapter (src/server/plugins/btcpayAdapter.js).

The JavaScript is shallowly embedded: JS values are modelled by the inductive
type JSVal, the remote BTCPay Greenfield service is modelled as explicit state
(a Server value holding each store's invoice records, per spec section 6), and
each source function becomes a Lean function of the same name.  Fallible code
returns Except String.  Property access on a value that may be null/undefined
uses jsGetE, which errors exactly where JavaScript would throw a TypeError;
guarded accesses (behind a truthiness test in the source) use the total jsGet.
-/

namespace BTCPay

/-- Model of a JavaScript value: undefined, null, booleans, numbers
(integer-valued only; no claim involves fractional numbers), strings, arrays
and objects (ordered key-value field lists, as produced by object literals). -/
inductive JSVal where
  | undefined : JSVal
  | null : JSVal
  | bool : Bool → JSVal
  | num : Int → JSVal
  | str : String → JSVal
  | arr : List JSVal → JSVal
  | obj : List (String × JSVal) → JSVal

/-- JS truthiness: undefined, null, false, 0 and the empty string are falsy;
every object and array is truthy. -/
def truthy : JSVal → Bool
  | .undefined => false
  | .null => false
  | .bool b => b
  | .num n => n != 0
  | .str s => s != ""
  | .arr _ => true
  | .obj _ => true

/-- Property read x.k, total form: undefined for a missing key and for any
non-object base (in JS, property access on a primitive yields undefined). -/
def jsGet : JSVal → String → JSVal
  | .obj fs, k =>
    match fs.lookup k with
    | some v => v
    | none => .undefined
  | _, _ => .undefined

/-- Property read x.k where x may be null or undefined: JS throws a TypeError
there; every other base behaves like jsGet. -/
def jsGetE : JSVal → String → Except String JSVal
  | .undefined, k => .error ("TypeError: cannot read property " ++ k ++ " of undefined")
  | .null, k => .error ("TypeError: cannot read property " ++ k ++ " of null")
  | v, k => .ok (jsGet v k)

/-- JS strict equality (the === operator).  Exact on primitives.  Two object
or array operands compare by reference in JS; in the modelled flows every
object that reaches a comparison is freshly constructed, so the comparison is
false there, and the adapter only ever compares primitive document fields
(spec section 3: ids, emails, tokens are strings). -/
def jsEqb : JSVal → JSVal → Bool
  | .undefined, .undefined => true
  | .null, .null => true
  | .bool a, .bool b => a == b
  | .num a, .num b => a == b
  | .str a, .str b => a == b
  | _, _ => false

/-- String interpolation of a value into a URL or template literal.
Composite values never reach an interpolation site in the modelled flows, so
their rendering is a placeholder. -/
def jsToString : JSVal → String
  | .undefined => "undefined"
  | .null => "null"
  | .bool true => "true"
  | .bool false => "false"
  | .num n => toString n
  | .str s => s
  | .arr _ => ""
  | .obj _ => "[object Object]"

/-- Key insertion as performed by a JS object literal: an existing key keeps
its position and receives the new value, a new key is appended. -/
def setKey : List (String × JSVal) → String → JSVal → List (String × JSVal)
  | [], k, v => [(k, v)]
  | (k', v') :: rest, k, v =>
    if k' == k then (k', v) :: rest else (k', v') :: setKey rest k v

/-- Object spread: folds the spread value's fields into the fields built so
far.  Spreading null, undefined or another primitive contributes no fields. -/
def spreadInto (base : List (String × JSVal)) : JSVal → List (String × JSVal)
  | .obj ms => ms.foldl (fun acc kv => setKey acc kv.1 kv.2) base
  | _ => base

/-- Property assignment x.k = v, modelled totally: assignment on a non-object
is ignored (the adapter contract, spec section 4.2, only ever supplies
document objects here). -/
def jsSet : JSVal → String → JSVal → JSVal
  | .obj fs, k, v => .obj (setKey fs k v)
  | x, _, _ => x

/-- In JS, typeof x is "object" for objects, arrays and null; the null case is
always excluded by a preceding truthiness guard in the source. -/
def isObjectLike : JSVal → Bool
  | .obj _ => true
  | .arr _ => true
  | _ => false

/-- Remote invoice record as stored by the BTCPay service: processor-assigned
id, caller-assigned orderId, metadata bag and the archived flag
(spec sections 3 and 6). -/
structure InvoiceRec where
  btcId : String
  orderId : String
  metadata : JSVal
  archived : Bool

/-- JSON object shape in which the service returns an invoice (spec section 6). -/
def InvoiceRec.toJS (r : InvoiceRec) : JSVal :=
  .obj [("id", .str r.btcId), ("orderId", .str r.orderId),
        ("metadata", r.metadata), ("archived", .bool r.archived)]

/-- Remote service state: the invoice list of each store keyed by store id, a
counter for fresh processor-assigned ids, and the log of archive requests
issued so far (storeId, invoice id), used to express operation ordering. -/
structure Server where
  stores : List (String × List InvoiceRec)
  fresh : Nat
  log : List (String × String)

def setStores (l : List (String × List InvoiceRec)) (sid : String)
    (invs : List InvoiceRec) : List (String × List InvoiceRec) :=
  match l with
  | [] => [(sid, invs)]
  | (k, v) :: rest =>
    if k == sid then (k, invs) :: rest else (k, v) :: setStores rest sid invs

def Server.getStore (srv : Server) (sid : String) : List InvoiceRec :=
  match srv.stores.lookup sid with
  | some l => l
  | none => []

def Server.setStore (srv : Server) (sid : String) (invs : List InvoiceRec) : Server :=
  { srv with stores := setStores srv.stores sid invs }

/-- Response of GET /api/v1/invoices?storeId=sid[&orderId=o]: the JSON array
of the store's invoices, filtered by orderId when that query parameter is
present (spec section 6).  The service reports archived invoices too; the
client filters them out itself. -/
def serverListInvoices (sid : String) (orderFilter : Option String) (srv : Server) : JSVal :=
  .arr (((srv.getStore sid).filter (fun r =>
    match orderFilter with
    | some o => r.orderId == o
    | none => true)).map InvoiceRec.toJS)

/-- Marks every invoice carrying the given processor id as archived. -/
def archiveBtc (btcId : String) (l : List InvoiceRec) : List InvoiceRec :=
  l.map (fun q => if q.btcId == btcId then { q with archived := true } else q)

/-- POST /api/v1/invoices/{btcId}/archive?storeId=sid: archives the addressed
invoice and echoes it; a 404 error when no invoice has that processor id
(spec section 6).  The request is recorded in the archive log. -/
def serverArchive (sid : String) (btcId : String) (srv : Server) :
    Except String (JSVal × Server) :=
  match (srv.getStore sid).find? (fun r => r.btcId == btcId) with
  | none => .error "404: invoice not found"
  | some r =>
    .ok (InvoiceRec.toJS { r with archived := true },
         { srv.setStore sid (archiveBtc btcId (srv.getStore sid)) with
             log := srv.log ++ [(sid, btcId)] })

/-- POST /api/v1/invoices/{btcId}?storeId=sid with an invoice payload:
replaces the addressed invoice's metadata with the payload's metadata and
echoes the updated invoice; 404 when the id is unknown (spec sections 4.1, 6). -/
def serverUpdate (sid : String) (btcId : String) (payload : JSVal) (srv : Server) :
    Except String (JSVal × Server) :=
  match (srv.getStore sid).find? (fun r => r.btcId == btcId) with
  | none => .error "404: invoice not found"
  | some r =>
    .ok (InvoiceRec.toJS { r with metadata := jsGet payload "metadata" },
         srv.setStore sid ((srv.getStore sid).map (fun q =>
           if q.btcId == btcId then { q with metadata := jsGet payload "metadata" } else q)))

/-- POST /api/v1/invoices?storeId=sid: stores a new non-archived invoice with
a fresh processor-assigned id, orderId and metadata taken from the payload,
and echoes it (spec section 6). -/
def serverCreate (sid : String) (payload : JSVal) (srv : Server) : JSVal × Server :=
  let r : InvoiceRec :=
    { btcId := "btcpay" ++ toString srv.fresh,
      orderId := jsToString (jsGet payload "orderId"),
      metadata := jsGet payload "metadata",
      archived := false }
  (r.toJS, { srv.setStore sid (srv.getStore sid ++ [r]) with fresh := srv.fresh + 1 })

/-- btcpay.js lines 65-68.  Wraps a document into the invoice payload format
unless it already carries a (truthy) metadata property. -/
def wrapPayload (doc : JSVal) : JSVal :=
  if truthy doc && isObjectLike doc && !truthy (jsGet doc "metadata") then
    .obj [("orderId", jsGet doc "id"), ("metadata", doc)]
  else doc

/-- btcpay.js lines 77-78.  Unwraps an invoice response into a plain document:
the object literal starts from id := invoice.orderId, spreads
invoice.metadata over it and finally sets btcpayId := invoice.id. -/
def unwrapInvoice (invoice : JSVal) : JSVal :=
  if truthy invoice then
    .obj (setKey (spreadInto [("id", jsGet invoice "orderId")] (jsGet invoice "metadata"))
      "btcpayId" (jsGet invoice "id"))
  else .null

/-- btcpay.js lines 86-91. -/
def createInvoice (storeId : String) (doc : JSVal) (srv : Server) :
    Except String (JSVal × Server) :=
  let payload := wrapPayload doc
  let res := serverCreate storeId payload srv
  .ok (unwrapInvoice res.1, res.2)

/-- Evaluation of result.find (fun inv => !inv.archived) for a response array:
the archived read throws when an element is null or undefined, exactly as the
source's arrow function would. -/
def findActiveE : List JSVal → Except String JSVal
  | [] => .ok .undefined
  | inv :: rest =>
    match jsGetE inv "archived" with
    | .error e => .error e
    | .ok a => if truthy a then findActiveE rest else .ok inv

/-- btcpay.js lines 103-107: the response-processing part of
getInvoiceByOrderId, applied to an already-received response value. -/
def getInvoiceByOrderIdResp (result : JSVal) : Except String JSVal :=
  match result with
  | .arr xs =>
    match findActiveE xs with
    | .error e => .error e
    | .ok activeInvoice =>
      .ok (if truthy activeInvoice then unwrapInvoice activeInvoice else .null)
  | _ => .ok .null

/-- btcpay.js lines 100-108: GET by store and orderId (the orderId value is
stringified into the URL), then normalize the response. -/
def getInvoiceByOrderId (storeId : String) (orderId : JSVal) (srv : Server) :
    Except String JSVal :=
  getInvoiceByOrderIdResp (serverListInvoices storeId (some (jsToString orderId)) srv)

/-- Evaluation of result.filter (fun inv => !inv.archived), throwing where the
archived read would throw. -/
def filterActiveE : List JSVal → Except String (List JSVal)
  | [] => .ok []
  | inv :: rest =>
    match jsGetE inv "archived" with
    | .error e => .error e
    | .ok a =>
      match filterActiveE rest with
      | .error e => .error e
      | .ok tail => .ok (if truthy a then tail else inv :: tail)

/-- btcpay.js lines 154-156: the response-processing part of listInvoices. -/
def listInvoicesResp (result : JSVal) : Except String (List JSVal) :=
  match result with
  | .arr xs =>
    match filterActiveE xs with
    | .error e => .error e
    | .ok active => .ok (active.map unwrapInvoice)
  | _ => .ok []

/-- btcpay.js lines 149-157.  The extra query parameters only add remote-side
filters (out of scope, spec section 4.1); the model forwards the store id. -/
def listInvoices (storeId : String) (_queryParams : JSVal) (srv : Server) :
    Except String (List JSVal) :=
  listInvoicesResp (serverListInvoices storeId none srv)

/-- btcpay.js lines 166-170 applied to a given list response: find the first
unwrapped document with doc[key] === value, else null (a found document is
truthy by the guard in the predicate, so the trailing or-null only converts
the undefined of a failed find). -/
def findInvoiceByMetadataResp (result : JSVal) (key : String) (value : JSVal) :
    Except String JSVal :=
  match listInvoicesResp result with
  | .error e => .error e
  | .ok invoices =>
    .ok (match invoices.find? (fun doc => truthy doc && jsEqb (jsGet doc key) value) with
         | some invoice => invoice
         | none => .null)

/-- btcpay.js lines 166-170. -/
def findInvoiceByMetadata (storeId : String) (key : String) (value : JSVal)
    (srv : Server) : Except String JSVal :=
  findInvoiceByMetadataResp (serverListInvoices storeId none srv) key value

/-- btcpay.js lines 117-125. -/
def updateInvoice (storeId : String) (orderId : JSVal) (doc : JSVal) (srv : Server) :
    Except String (JSVal × Server) :=
  let payload := wrapPayload doc
  match getInvoiceByOrderId storeId orderId srv with
  | .error e => .error e
  | .ok existingInvoice =>
    if truthy existingInvoice then
      let btcpayInvoiceId :=
        if truthy (jsGet existingInvoice "btcpayId") then jsGet existingInvoice "btcpayId"
        else jsGet existingInvoice "id"
      match serverUpdate storeId (jsToString btcpayInvoiceId) payload srv with
      | .error e => .error e
      | .ok res => .ok (unwrapInvoice res.1, res.2)
    else .error "Invoice not found for update."

/-- btcpay.js lines 133-140. -/
def archiveInvoice (storeId : String) (orderId : JSVal) (srv : Server) :
    Except String (JSVal × Server) :=
  match getInvoiceByOrderId storeId orderId srv with
  | .error e => .error e
  | .ok existingInvoice =>
    if truthy existingInvoice then
      let btcpayInvoiceId :=
        if truthy (jsGet existingInvoice "btcpayId") then jsGet existingInvoice "btcpayId"
        else jsGet existingInvoice "id"
      match serverArchive storeId (jsToString btcpayInvoiceId) srv with
      | .error e => .error e
      | .ok res => .ok (unwrapInvoice res.1, res.2)
    else .error "Invoice not found for archiving."

/-- btcpay.js lines 182-187: the sequential archive loop of
archiveInvoicesByMetadata (each matched document is truthy by construction,
so the doc.id read is safe). -/
def archiveEach (storeId : String) : List JSVal → Server → Except String (List JSVal × Server)
  | [], srv => .ok ([], srv)
  | doc :: rest, srv =>
    match archiveInvoice storeId (jsGet doc "id") srv with
    | .error e => .error e
    | .ok res =>
      match archiveEach storeId rest res.2 with
      | .error e => .error e
      | .ok res' => .ok (res.1 :: res'.1, res'.2)

/-- btcpay.js lines 179-188. -/
def archiveInvoicesByMetadata (storeId : String) (key : String) (value : JSVal)
    (srv : Server) : Except String (List JSVal × Server) :=
  match listInvoices storeId (.obj []) srv with
  | .error e => .error e
  | .ok invoices =>
    archiveEach storeId
      (invoices.filter (fun doc => truthy doc && jsEqb (jsGet doc key) value)) srv

/-- btcpay.js lines 196-205: store-bound variants of the client operations. -/
structure StoreMethods where
  createInvoice : JSVal → Server → Except String (JSVal × Server)
  getInvoiceByOrderId : JSVal → Server → Except String JSVal
  updateInvoice : JSVal → JSVal → Server → Except String (JSVal × Server)
  archiveInvoice : JSVal → Server → Except String (JSVal × Server)
  listInvoices : JSVal → Server → Except String (List JSVal)
  findInvoiceByMetadata : String → JSVal → Server → Except String JSVal
  archiveInvoicesByMetadata : String → JSVal → Server → Except String (List JSVal × Server)

def makeStoreMethods (storeId : String) : StoreMethods where
  createInvoice := fun doc srv => createInvoice storeId doc srv
  getInvoiceByOrderId := fun orderId srv => getInvoiceByOrderId storeId orderId srv
  updateInvoice := fun orderId doc srv => updateInvoice storeId orderId doc srv
  archiveInvoice := fun orderId srv => archiveInvoice storeId orderId srv
  listInvoices := fun queryParams srv => listInvoices storeId queryParams srv
  findInvoiceByMetadata := fun key value srv => findInvoiceByMetadata storeId key value srv
  archiveInvoicesByMetadata := fun key value srv => archiveInvoicesByMetadata storeId key value srv

/-- btcpay.js lines 207-222: the three bound store objects returned by the
client factory (the HTTP configuration, base URL and API key, lives entirely
in the out-of-scope transport layer and is omitted). -/
structure Client where
  user : StoreMethods
  session : StoreMethods
  verificationToken : StoreMethods

def BTCPayClient (userStoreId sessionStoreId verificationTokenStoreId : String) : Client where
  user := makeStoreMethods userStoreId
  session := makeStoreMethods sessionStoreId
  verificationToken := makeStoreMethods verificationTokenStoreId

/-- btcpayAdapter.js lines 18-22: the three configured store identifiers. -/
structure StoreIds where
  Users : String
  Sessions : String
  VerificationTokens : String

/-- Hex digit characters, lowercase, as produced by Buffer.toString with the
hex encoding. -/
def hexChars : List Char :=
  (List.range 16).map (fun n => Char.ofNat (if n < 10 then 48 + n else 87 + n))

/-- btcpayAdapter.js line 5: crypto.randomBytes(12).toString of the hex
encoding, with the random bytes supplied as an explicit input (each byte
renders as two hex digits). -/
def generateId (bytes : List Nat) : String :=
  String.mk (bytes.foldr
    (fun b acc => hexChars.getD (b / 16 % 16) '0' :: hexChars.getD (b % 16) '0' :: acc) [])

/-- btcpayAdapter.js lines 25-33.  Mutates data by assigning a generated id
when data.id is falsy, wraps it as an invoice payload and creates it; returns
the caller's (possibly id-extended) document, not the server echo. -/
def createDocument (store : String) (genBytes : List Nat) (data : JSVal) (srv : Server) :
    Except String (JSVal × Server) :=
  let data' := if truthy (jsGet data "id") then data
               else jsSet data "id" (.str (generateId genBytes))
  let invoiceData : JSVal := .obj [("orderId", jsGet data' "id"), ("metadata", data')]
  match createInvoice store invoiceData srv with
  | .error e => .error e
  | .ok res => .ok (data', res.2)

/-- btcpayAdapter.js lines 36-39. -/
def getDocument (store : String) (id : JSVal) (srv : Server) : Except String JSVal :=
  match getInvoiceByOrderId store id srv with
  | .error e => .error e
  | .ok invoice => .ok (if truthy invoice then jsGet invoice "metadata" else .null)

/-- btcpayAdapter.js lines 42-45 (the metadata read on the updated invoice is
unguarded in the source, hence jsGetE). -/
def updateDocument (store : String) (id : JSVal) (data : JSVal) (srv : Server) :
    Except String (JSVal × Server) :=
  match updateInvoice store id (.obj [("metadata", data)]) srv with
  | .error e => .error e
  | .ok res =>
    match jsGetE res.1 "metadata" with
    | .error e => .error e
    | .ok m => .ok (m, res.2)

/-- btcpayAdapter.js line 48. -/
def deleteDocument (store : String) (id : JSVal) (srv : Server) :
    Except String (JSVal × Server) :=
  archiveInvoice store id srv

/-- btcpayAdapter.js lines 51-54. -/
def findDocumentByField (store : String) (field : String) (value : JSVal) (srv : Server) :
    Except String JSVal :=
  match findInvoiceByMetadata store field value srv with
  | .error e => .error e
  | .ok invoice => .ok (if truthy invoice then jsGet invoice "metadata" else .null)

/-- btcpayAdapter.js line 57. -/
def createUser (ids : StoreIds) (genBytes : List Nat) (data : JSVal) (srv : Server) :
    Except String (JSVal × Server) :=
  createDocument ids.Users genBytes data srv

/-- btcpayAdapter.js line 59. -/
def getUser (ids : StoreIds) (id : JSVal) (srv : Server) : Except String JSVal :=
  getDocument ids.Users id srv

/-- btcpayAdapter.js lines 61-62. -/
def getUserByEmail (ids : StoreIds) (email : JSVal) (srv : Server) : Except String JSVal :=
  findDocumentByField ids.Users "email" email srv

/-- btcpayAdapter.js lines 72-77: archive the user's invoice, then every
session and every verification token whose userId matches; the async function
itself returns undefined. -/
def deleteUser (ids : StoreIds) (id : JSVal) (srv : Server) :
    Except String (JSVal × Server) :=
  match deleteDocument ids.Users id srv with
  | .error e => .error e
  | .ok res1 =>
    match archiveInvoicesByMetadata ids.Sessions "userId" id res1.2 with
    | .error e => .error e
    | .ok res2 =>
      match archiveInvoicesByMetadata ids.VerificationTokens "userId" id res2.2 with
      | .error e => .error e
      | .ok res3 => .ok (.undefined, res3.2)

/-- btcpayAdapter.js lines 83-88. -/
def getSessionAndUser (ids : StoreIds) (sessionToken : JSVal) (srv : Server) :
    Except String JSVal :=
  match findDocumentByField ids.Sessions "sessionToken" sessionToken srv with
  | .error e => .error e
  | .ok session =>
    if truthy session then
      match getDocument ids.Users (jsGet session "userId") srv with
      | .error e => .error e
      | .ok user => .ok (if truthy user then .obj [("session", session), ("user", user)] else .null)
    else .ok .null

/-- btcpayAdapter.js lines 90 and 104-105. -/
def createSession (ids : StoreIds) (genBytes : List Nat) (data : JSVal) (srv : Server) :
    Except String (JSVal × Server) :=
  createDocument ids.Sessions genBytes data srv

def createVerificationToken (ids : StoreIds) (genBytes : List Nat) (data : JSVal)
    (srv : Server) : Except String (JSVal × Server) :=
  createDocument ids.VerificationTokens genBytes data srv

/-- btcpayAdapter.js lines 107-117.  The token and id reads go through the
metadata property of the already-unwrapped found invoice; that read is
unguarded in the source, hence jsGetE. -/
def useVerificationToken (ids : StoreIds) (data : JSVal) (srv : Server) :
    Except String (JSVal × Server) :=
  match findInvoiceByMetadata ids.VerificationTokens "identifier" (jsGet data "identifier") srv with
  | .error e => .error e
  | .ok invoice =>
    if truthy invoice then
      match jsGetE (jsGet invoice "metadata") "token" with
      | .error e => .error e
      | .ok storedToken =>
        if jsEqb storedToken (jsGet data "token") then
          match jsGetE (jsGet invoice "metadata") "id" with
          | .error e => .error e
          | .ok mid =>
            match deleteDocument ids.VerificationTokens mid srv with
            | .error e => .error e
            | .ok res => .ok (jsGet invoice "metadata", res.2)
        else .ok (.null, srv)
    else .ok (.null, srv)

/-- Array.isArray. -/
def isArr : JSVal → Bool
  | .arr _ => true
  | _ => false

/-- First non-archived invoice of a store carrying the given order id: the
invoice that the client's resolve-by-orderId path settles on. -/
def findActiveOrder (invs : List InvoiceRec) (o : String) : Option InvoiceRec :=
  (invs.filter (fun r => r.orderId == o)).find? (fun r => !r.archived)

/-- Marks every invoice whose processor id occurs in the given list as
archived. -/
def archiveBtcs (bs : List String) (l : List InvoiceRec) : List InvoiceRec :=
  l.map (fun q => if bs.contains q.btcId then { q with archived := true } else q)

/-- Record metadata well-formedness: the metadata bag is an object with
distinct keys whose id field equals the invoice's orderId, the invariant the
adapter establishes on creation (spec section 3). -/
def metaIdOk (r : InvoiceRec) : Prop :=
  match r.metadata with
  | .obj ms => (ms.map Prod.fst).Nodup ∧ ms.lookup "id" = some (.str r.orderId)
  | _ => False

/-- Store well-formedness: every record has a nonempty processor id and
well-formed metadata, and order ids as well as processor ids are pairwise
distinct (spec section 3: the id is mandatory and unique; processor ids are
assigned uniquely by the service). -/
def WFStore (invs : List InvoiceRec) : Prop :=
  (∀ r ∈ invs, r.btcId ≠ "" ∧ metaIdOk r) ∧
  invs.Pairwise (fun a b => a.orderId ≠ b.orderId ∧ a.btcId ≠ b.btcId)

theorem lookup_setKey_self (fs : List (String × JSVal)) (k : String) (v : JSVal) :
    (setKey fs k v).lookup k = some v := by
  induction fs with
  | nil => simp [setKey]
  | cons kv rest ih =>
    obtain ⟨k', v'⟩ := kv
    by_cases h : k' = k
    · subst h
      simp [setKey]
    · have e : (k == k') = false := by
        simp [beq_eq_false_iff_ne]
        exact fun hh => h hh.symm
      simp [setKey, h, List.lookup, e, ih]

theorem lookup_setKey_ne (fs : List (String × JSVal)) (k k' : String) (v : JSVal)
    (h : k' ≠ k) : (setKey fs k v).lookup k' = fs.lookup k' := by
  have e : (k' == k) = false := by
    simp [beq_eq_false_iff_ne]
    exact h
  induction fs with
  | nil => simp [setKey, List.lookup, e]
  | cons kv rest ih =>
    obtain ⟨k₀, v₀⟩ := kv
    by_cases h0 : k₀ = k
    · subst h0
      simp [setKey, List.lookup, e]
    · simp [setKey, h0, List.lookup, ih]

theorem lookup_eq_none_of_nmem (fs : List (String × JSVal)) (k : String)
    (h : k ∉ fs.map Prod.fst) : fs.lookup k = none := by
  induction fs with
  | nil => rfl
  | cons kv rest ih =>
    simp only [List.map_cons, List.mem_cons] at h
    push_neg at h
    have e : (k == kv.1) = false := by
      simp [beq_eq_false_iff_ne]
      exact h.1
    simp [List.lookup, e, ih h.2]

theorem lookup_spreadInto_obj (base : List (String × JSVal)) (ms : List (String × JSVal))
    (k : String) (hnd : (ms.map Prod.fst).Nodup) :
    (spreadInto base (.obj ms)).lookup k =
      match ms.lookup k with
      | some v => some v
      | none => base.lookup k := by
  induction ms generalizing base with
  | nil => simp [spreadInto]
  | cons kv ms' ih =>
    obtain ⟨k₀, v₀⟩ := kv
    simp only [List.map_cons, List.nodup_cons] at hnd
    have step : spreadInto base (.obj ((k₀, v₀) :: ms')) =
        spreadInto (setKey base k₀ v₀) (.obj ms') := rfl
    rw [step, ih (setKey base k₀ v₀) hnd.2]
    by_cases hk : k = k₀
    · subst hk
      have hnone : ms'.lookup k = none :=
        lookup_eq_none_of_nmem ms' k hnd.1
      simp [hnone, List.lookup, lookup_setKey_self]
    · have e : (k == k₀) = false := by
        simp [beq_eq_false_iff_ne]
        exact hk
      simp [List.lookup, e, lookup_setKey_ne base k₀ k v₀ hk]

theorem jsGet_toJS_orderId (r : InvoiceRec) : jsGet r.toJS "orderId" = .str r.orderId := rfl

theorem jsGet_toJS_metadata (r : InvoiceRec) : jsGet r.toJS "metadata" = r.metadata := rfl

theorem jsGet_toJS_id (r : InvoiceRec) : jsGet r.toJS "id" = .str r.btcId := rfl

theorem jsGet_toJS_archived (r : InvoiceRec) : jsGet r.toJS "archived" = .bool r.archived := rfl

theorem truthy_toJS (r : InvoiceRec) : truthy r.toJS = true := rfl

theorem unwrap_toJS_eq (r : InvoiceRec) :
    unwrapInvoice r.toJS =
      .obj (setKey (spreadInto [("id", .str r.orderId)] r.metadata) "btcpayId" (.str r.btcId)) :=
  rfl

theorem truthy_unwrap_toJS (r : InvoiceRec) : truthy (unwrapInvoice r.toJS) = true := by
  rw [unwrap_toJS_eq]
  rfl

theorem jsGet_unwrap_btcpayId (r : InvoiceRec) :
    jsGet (unwrapInvoice r.toJS) "btcpayId" = .str r.btcId := by
  rw [unwrap_toJS_eq]
  simp [jsGet, lookup_setKey_self]

theorem metaIdOk_elim (r : InvoiceRec) (h : metaIdOk r) :
    ∃ ms, r.metadata = .obj ms ∧ (ms.map Prod.fst).Nodup ∧
      ms.lookup "id" = some (.str r.orderId) := by
  unfold metaIdOk at h
  rcases hm : r.metadata with _ | _ | b | n | s | xs | ms <;> rw [hm] at h
  · exact h.elim
  · exact h.elim
  · exact h.elim
  · exact h.elim
  · exact h.elim
  · exact h.elim
  · exact ⟨ms, rfl, h⟩

theorem jsGet_unwrap_id (r : InvoiceRec) (h : metaIdOk r) :
    jsGet (unwrapInvoice r.toJS) "id" = .str r.orderId := by
  obtain ⟨ms, hm, hnd, hid⟩ := metaIdOk_elim r h
  rw [unwrap_toJS_eq, hm]
  have hne : ("id" : String) ≠ "btcpayId" := by decide
  simp only [jsGet, lookup_setKey_ne _ _ _ _ hne,
    lookup_spreadInto_obj _ ms _ hnd, hid]

theorem jsGet_unwrap_other (r : InvoiceRec) (k : String) (h : metaIdOk r)
    (h1 : k ≠ "id") (h2 : k ≠ "btcpayId") :
    jsGet (unwrapInvoice r.toJS) k = jsGet r.metadata k := by
  obtain ⟨ms, hm, hnd, _⟩ := metaIdOk_elim r h
  rw [unwrap_toJS_eq, hm]
  simp only [jsGet, lookup_setKey_ne _ _ _ _ h2,
    lookup_spreadInto_obj _ ms _ hnd]
  have e : (k == "id") = false := by
    simp [beq_eq_false_iff_ne]
    exact h1
  rcases hms : ms.lookup k with _ | w
  · simp [List.lookup, e]
  · simp

theorem findActiveE_map_toJS (l : List InvoiceRec) :
    findActiveE (l.map InvoiceRec.toJS) =
      .ok (match l.find? (fun r => !r.archived) with
           | some r => r.toJS
           | none => .undefined) := by
  induction l with
  | nil => rfl
  | cons r rest ih =>
    have e : jsGetE r.toJS "archived" = .ok (.bool r.archived) := rfl
    rcases hr : r.archived with _ | _
    · simp [findActiveE, e, List.find?, hr, truthy]
    · simp [findActiveE, e, List.find?, hr, truthy, ih]

theorem filterActiveE_map_toJS (l : List InvoiceRec) :
    filterActiveE (l.map InvoiceRec.toJS) =
      .ok ((l.filter (fun r => !r.archived)).map InvoiceRec.toJS) := by
  induction l with
  | nil => rfl
  | cons r rest ih =>
    have e : jsGetE r.toJS "archived" = .ok (.bool r.archived) := rfl
    rcases hr : r.archived with _ | _
    · simp [filterActiveE, e, List.filter, hr, truthy, ih]
    · simp [filterActiveE, e, List.filter, hr, truthy, ih]

theorem getInvoiceByOrderId_eq (sid o : String) (srv : Server) :
    getInvoiceByOrderId sid (.str o) srv =
      .ok (match findActiveOrder (srv.getStore sid) o with
           | some r => unwrapInvoice r.toJS
           | none => .null) := by
  have h1 : getInvoiceByOrderId sid (.str o) srv =
      getInvoiceByOrderIdResp
        (.arr (((srv.getStore sid).filter (fun r => r.orderId == o)).map InvoiceRec.toJS)) := rfl
  rw [h1]
  unfold findActiveOrder
  simp only [getInvoiceByOrderIdResp, findActiveE_map_toJS]
  rcases h : ((srv.getStore sid).filter (fun r => r.orderId == o)).find? (fun r => !r.archived)
    with _ | r
  · rw [h]
    rfl
  · rw [h]
    rfl

theorem listInvoices_eq (sid : String) (qp : JSVal) (srv : Server) :
    listInvoices sid qp srv =
      .ok (((srv.getStore sid).filter (fun r => !r.archived)).map
        (fun r => unwrapInvoice r.toJS)) := by
  have h1 : listInvoices sid qp srv =
      listInvoicesResp
        (.arr (((srv.getStore sid).filter (fun _ => true)).map InvoiceRec.toJS)) := rfl
  rw [h1]
  rw [List.filter_true]
  simp only [listInvoicesResp, filterActiveE_map_toJS]
  simp [List.map_map, Function.comp]

theorem findInvoiceByMetadata_eq (sid key : String) (v : JSVal) (srv : Server) :
    findInvoiceByMetadata sid key v srv =
      .ok (match ((srv.getStore sid).filter (fun r => !r.archived)).find?
             (fun r => jsEqb (jsGet (unwrapInvoice r.toJS) key) v) with
           | some r => unwrapInvoice r.toJS
           | none => .null) := by
  have h1 : findInvoiceByMetadata sid key v srv =
      match listInvoices sid (.obj []) srv with
      | .error e => .error e
      | .ok invoices =>
        .ok (match invoices.find? (fun doc => truthy doc && jsEqb (jsGet doc key) v) with
             | some invoice => invoice
             | none => .null) := rfl
  rw [h1, listInvoices_eq]
  have hp : ((fun doc => truthy doc && jsEqb (jsGet doc key) v) ∘
        fun r : InvoiceRec => unwrapInvoice r.toJS) =
      fun r : InvoiceRec => jsEqb (jsGet (unwrapInvoice r.toJS) key) v := by
    funext r
    simp [Function.comp, truthy_unwrap_toJS]
  simp only [List.find?_map, hp]
  rcases h : ((srv.getStore sid).filter (fun r => !r.archived)).find?
      (fun r => jsEqb (jsGet (unwrapInvoice r.toJS) key) v) with _ | r
  · rw [h]
    rfl
  · rw [h]
    rfl

theorem getStore_setStore_self (srv : Server) (sid : String) (l : List InvoiceRec) :
    (srv.setStore sid l).getStore sid = l := by
  show Server.getStore _ sid = l
  unfold Server.getStore Server.setStore
  simp only []
  induction srv.stores with
  | nil => simp [setStores, List.lookup]
  | cons kv rest ih =>
    obtain ⟨k, w⟩ := kv
    by_cases h : k = sid
    · subst h
      simp [setStores, List.lookup]
    · have e : (sid == k) = false := by
        simp [beq_eq_false_iff_ne]
        exact fun hh => h hh.symm
      have e2 : (k == sid) = false := by
        simp [beq_eq_false_iff_ne]
        exact h
      simpa [setStores, e2, List.lookup, e] using ih

theorem getStore_setStore_ne (srv : Server) (sid sid' : String) (l : List InvoiceRec)
    (h : sid' ≠ sid) : (srv.setStore sid l).getStore sid' = srv.getStore sid' := by
  show Server.getStore _ sid' = Server.getStore _ sid'
  unfold Server.getStore Server.setStore
  simp only []
  induction srv.stores with
  | nil =>
    have e : (sid' == sid) = false := by
      simp [beq_eq_false_iff_ne]
      exact h
    simp [setStores, List.lookup, e]
  | cons kv rest ih =>
    obtain ⟨k, w⟩ := kv
    by_cases hk : k = sid
    · subst hk
      have e : (sid' == k) = false := by
        simp [beq_eq_false_iff_ne]
        exact h
      simp [setStores, List.lookup, e]
    · have e2 : (k == sid) = false := by
        simp [beq_eq_false_iff_ne]
        exact hk
      by_cases hk' : sid' = k
      · subst hk'
        simp [setStores, e2, List.lookup]
      · have e3 : (sid' == k) = false := by
          simp [beq_eq_false_iff_ne]
          exact hk'
        simpa [setStores, e2, List.lookup, e3] using ih

theorem log_setStore (srv : Server) (sid : String) (l : List InvoiceRec) :
    (srv.setStore sid l).log = srv.log := rfl

theorem findActiveOrder_mem (invs : List InvoiceRec) (o : String) (r : InvoiceRec)
    (h : findActiveOrder invs o = some r) :
    r ∈ invs ∧ r.orderId = o ∧ r.archived = false := by
  unfold findActiveOrder at h
  have hmem := List.mem_of_find?_eq_some h
  have hp := List.find?_some h
  refine ⟨List.mem_of_mem_filter hmem, ?_, ?_⟩
  · have := (List.mem_filter.mp hmem).2
    simpa using this
  · simpa using hp

theorem findActiveOrder_eq_none (invs : List InvoiceRec) (o : String)
    (h : ∀ q ∈ invs, q.orderId = o → q.archived = true) :
    findActiveOrder invs o = none := by
  unfold findActiveOrder
  rw [List.find?_eq_none]
  intro x hx
  have hm := List.mem_filter.mp hx
  have ho : x.orderId = o := by simpa using hm.2
  have := h x hm.1 ho
  simp [this]

theorem updateInvoice_not_found (sid o : String) (doc : JSVal) (srv : Server)
    (h : findActiveOrder (srv.getStore sid) o = none) :
    updateInvoice sid (.str o) doc srv = .error "Invoice not found for update." := by
  unfold updateInvoice
  rw [getInvoiceByOrderId_eq, h]
  rfl

theorem archiveInvoice_not_found (sid o : String) (srv : Server)
    (h : findActiveOrder (srv.getStore sid) o = none) :
    archiveInvoice sid (.str o) srv = .error "Invoice not found for archiving." := by
  unfold archiveInvoice
  rw [getInvoiceByOrderId_eq, h]
  rfl

theorem truthy_str_of_ne (s : String) (h : s ≠ "") : truthy (.str s) = true := by
  simp [truthy]
  exact h

theorem archiveInvoice_found (sid o : String) (srv : Server) (r : InvoiceRec)
    (h : findActiveOrder (srv.getStore sid) o = some r) (hb : r.btcId ≠ "") :
    archiveInvoice sid (.str o) srv =
      match (srv.getStore sid).find? (fun q => q.btcId == r.btcId) with
      | none => .error "404: invoice not found"
      | some q =>
        .ok (unwrapInvoice (InvoiceRec.toJS { q with archived := true }),
             { srv.setStore sid (archiveBtc r.btcId (srv.getStore sid)) with
                 log := srv.log ++ [(sid, r.btcId)] }) := by
  unfold archiveInvoice
  rw [getInvoiceByOrderId_eq, h]
  simp only [truthy_unwrap_toJS, jsGet_unwrap_btcpayId, truthy_str_of_ne r.btcId hb,
    if_true]
  have hts : jsToString (.str r.btcId) = r.btcId := rfl
  rw [hts]
  unfold serverArchive
  rcases hq : (srv.getStore sid).find? (fun q => q.btcId == r.btcId) with _ | q
  · rw [hq]
  · rw [hq]

theorem find?_btcId_isSome (invs : List InvoiceRec) (r : InvoiceRec) (hr : r ∈ invs) :
    ∃ q, invs.find? (fun q => q.btcId == r.btcId) = some q := by
  rcases h : invs.find? (fun q => q.btcId == r.btcId) with _ | q
  · rw [List.find?_eq_none] at h
    exact absurd (by simp) (h r hr)
  · exact ⟨q, h⟩

theorem hexChars_getD_mem (n : Nat) : hexChars.getD n '0' ∈ hexChars := by
  by_cases h : n < hexChars.length
  · have h16 : n < 16 := by simpa [hexChars] using h
    interval_cases n <;> decide
  · rw [List.getD_eq_default _ _ (Nat.le_of_not_lt h)]
    decide

theorem hexFold_length (bytes : List Nat) :
    (bytes.foldr (fun b acc =>
      hexChars.getD (b / 16 % 16) '0' :: hexChars.getD (b % 16) '0' :: acc) []).length =
      2 * bytes.length := by
  induction bytes with
  | nil => rfl
  | cons b bs ih =>
    simp only [List.foldr, List.length_cons, ih]
    omega

theorem hexFold_mem (bytes : List Nat) :
    ∀ c ∈ bytes.foldr (fun b acc =>
      hexChars.getD (b / 16 % 16) '0' :: hexChars.getD (b % 16) '0' :: acc) [],
      c ∈ hexChars := by
  induction bytes with
  | nil => intro c hc; exact absurd hc (by simp)
  | cons b bs ih =>
    intro c hc
    simp only [List.foldr, List.mem_cons] at hc
    rcases hc with h | h | h
    · rw [h]; exact hexChars_getD_mem _
    · rw [h]; exact hexChars_getD_mem _
    · exact ih c h

theorem generateId_length (bytes : List Nat) :
    (generateId bytes).length = 2 * bytes.length := by
  have h : (generateId bytes).length =
      (bytes.foldr (fun b acc =>
        hexChars.getD (b / 16 % 16) '0' :: hexChars.getD (b % 16) '0' :: acc) []).length := rfl
  rw [h, hexFold_length]

theorem generateId_mem (bytes : List Nat) :
    ∀ c ∈ (generateId bytes).data, c ∈ hexChars := by
  have h : (generateId bytes).data =
      bytes.foldr (fun b acc =>
        hexChars.getD (b / 16 % 16) '0' :: hexChars.getD (b % 16) '0' :: acc) [] := rfl
  rw [h]
  exact hexFold_mem bytes

/-- Claim C6: for every document d that is an object with an id field, no
metadata field and no btcpayId field yet, unwrapInvoice (wrapPayload d) is d
with exactly one added field, btcpayId (whose value is the wrapped payload's
processor id, undefined in this local composition): every other key keeps the
value it has in d, and no key beyond d's keys and btcpayId is present. -/
theorem wrap_unwrap_roundtrip (fs : List (String × JSVal)) (v : JSVal)
    (hnd : (fs.map Prod.fst).Nodup)
    (hid : fs.lookup "id" = some v)
    (hmeta : fs.lookup "metadata" = none)
    (hbtc : fs.lookup "btcpayId" = none) :
    ∃ gs, unwrapInvoice (wrapPayload (.obj fs)) = .obj gs ∧
      (∀ k, k ≠ "btcpayId" → gs.lookup k = fs.lookup k) ∧
      gs.lookup "btcpayId" = some .undefined ∧
      (∀ k, (gs.lookup k).isSome ↔ ((fs.lookup k).isSome ∨ k = "btcpayId")) := by
  have hw : wrapPayload (.obj fs) = .obj [("orderId", v), ("metadata", .obj fs)] := by
    unfold wrapPayload
    have hm : jsGet (.obj fs) "metadata" = .undefined := by simp [jsGet, hmeta]
    have hi : jsGet (.obj fs) "id" = v := by simp [jsGet, hid]
    simp [truthy, isObjectLike, hm, hi]
  have hu : unwrapInvoice (wrapPayload (.obj fs)) =
      .obj (setKey (spreadInto [("id", v)] (.obj fs)) "btcpayId" .undefined) := by
    rw [hw]
    rfl
  have heq : ∀ k, k ≠ "btcpayId" →
      (setKey (spreadInto [("id", v)] (.obj fs)) "btcpayId" JSVal.undefined).lookup k =
        fs.lookup k := by
    intro k hk
    rw [lookup_setKey_ne _ _ _ _ hk, lookup_spreadInto_obj _ fs _ hnd]
    rcases hfs : fs.lookup k with _ | w
    · have hki : k ≠ "id" := by
        intro hh
        rw [hh, hid] at hfs
        exact Option.noConfusion hfs
      have e : (k == "id") = false := by
        simp [beq_eq_false_iff_ne]
        exact hki
      simp [List.lookup, e]
    · rfl
  have hb : (setKey (spreadInto [("id", v)] (.obj fs)) "btcpayId" JSVal.undefined).lookup
      "btcpayId" = some .undefined := lookup_setKey_self _ _ _
  refine ⟨_, hu, heq, hb, ?_⟩
  intro k
  by_cases hk : k = "btcpayId"
  · subst hk
    simp [hb]
  · rw [heq k hk]
    simp [hk]

theorem claimC6_witness :
    ∃ gs, unwrapInvoice (wrapPayload
        (.obj [("id", .str "u1"), ("email", .str "a@b.com")])) = .obj gs ∧
      (∀ k, k ≠ "btcpayId" →
        gs.lookup k = ([("id", JSVal.str "u1"), ("email", JSVal.str "a@b.com")]).lookup k) ∧
      gs.lookup "btcpayId" = some .undefined ∧
      (∀ k, (gs.lookup k).isSome ↔
        ((([("id", JSVal.str "u1"), ("email", JSVal.str "a@b.com")]).lookup k).isSome ∨
          k = "btcpayId")) :=
  wrap_unwrap_roundtrip [("id", .str "u1"), ("email", .str "a@b.com")] (.str "u1")
    (by decide) rfl rfl rfl

/-- Claim C9: a remote response that is not a list makes listInvoices produce
an empty sequence and getInvoiceByOrderId produce null, with no error. -/
theorem nonlist_responses_normalized (result : JSVal) (h : isArr result = false) :
    listInvoicesResp result = .ok [] ∧ getInvoiceByOrderIdResp result = .ok .null := by
  rcases result with _ | _ | b | n | s | xs | fs
  · exact ⟨rfl, rfl⟩
  · exact ⟨rfl, rfl⟩
  · exact ⟨rfl, rfl⟩
  · exact ⟨rfl, rfl⟩
  · exact ⟨rfl, rfl⟩
  · exact absurd h (by simp [isArr])
  · exact ⟨rfl, rfl⟩

theorem claimC9_witness :
    listInvoicesResp (.str "oops") = .ok [] ∧
      getInvoiceByOrderIdResp (.str "oops") = .ok .null :=
  nonlist_responses_normalized (.str "oops") rfl

/-- Claim C10: each of the three bound store objects returned by BTCPayClient
forwards every operation to the unbound client operation with that store's
configured store identifier as the first argument. -/
theorem bound_store_methods_eq_unbound (u s vt : String) (doc orderId value qp : JSVal)
    (key : String) (srv : Server) :
    ((BTCPayClient u s vt).user.createInvoice doc srv = createInvoice u doc srv ∧
     (BTCPayClient u s vt).user.getInvoiceByOrderId orderId srv =
       getInvoiceByOrderId u orderId srv ∧
     (BTCPayClient u s vt).user.updateInvoice orderId doc srv =
       updateInvoice u orderId doc srv ∧
     (BTCPayClient u s vt).user.archiveInvoice orderId srv = archiveInvoice u orderId srv ∧
     (BTCPayClient u s vt).user.listInvoices qp srv = listInvoices u qp srv ∧
     (BTCPayClient u s vt).user.findInvoiceByMetadata key value srv =
       findInvoiceByMetadata u key value srv ∧
     (BTCPayClient u s vt).user.archiveInvoicesByMetadata key value srv =
       archiveInvoicesByMetadata u key value srv) ∧
    ((BTCPayClient u s vt).session.createInvoice doc srv = createInvoice s doc srv ∧
     (BTCPayClient u s vt).session.getInvoiceByOrderId orderId srv =
       getInvoiceByOrderId s orderId srv ∧
     (BTCPayClient u s vt).session.updateInvoice orderId doc srv =
       updateInvoice s orderId doc srv ∧
     (BTCPayClient u s vt).session.archiveInvoice orderId srv = archiveInvoice s orderId srv ∧
     (BTCPayClient u s vt).session.listInvoices qp srv = listInvoices s qp srv ∧
     (BTCPayClient u s vt).session.findInvoiceByMetadata key value srv =
       findInvoiceByMetadata s key value srv ∧
     (BTCPayClient u s vt).session.archiveInvoicesByMetadata key value srv =
       archiveInvoicesByMetadata s key value srv) ∧
    ((BTCPayClient u s vt).verificationToken.createInvoice doc srv =
       createInvoice vt doc srv ∧
     (BTCPayClient u s vt).verificationToken.getInvoiceByOrderId orderId srv =
       getInvoiceByOrderId vt orderId srv ∧
     (BTCPayClient u s vt).verificationToken.updateInvoice orderId doc srv =
       updateInvoice vt orderId doc srv ∧
     (BTCPayClient u s vt).verificationToken.archiveInvoice orderId srv =
       archiveInvoice vt orderId srv ∧
     (BTCPayClient u s vt).verificationToken.listInvoices qp srv = listInvoices vt qp srv ∧
     (BTCPayClient u s vt).verificationToken.findInvoiceByMetadata key value srv =
       findInvoiceByMetadata vt key value srv ∧
     (BTCPayClient u s vt).verificationToken.archiveInvoicesByMetadata key value srv =
       archiveInvoicesByMetadata vt key value srv) :=
  ⟨⟨rfl, rfl, rfl, rfl, rfl, rfl, rfl⟩,
   ⟨rfl, rfl, rfl, rfl, rfl, rfl, rfl⟩,
   ⟨rfl, rfl, rfl, rfl, rfl, rfl, rfl⟩⟩

/-- Claim C8: createUser returns the caller's input document for every server
state; a falsy (in particular absent) id is first replaced by a generated
identifier of exactly 24 hex characters, a truthy id is left unchanged.  The
entropy source, crypto.randomBytes, is externalized as the 12-byte input. -/
theorem createUser_returns_input (ids : StoreIds) (bytes : List Nat)
    (fs : List (String × JSVal)) (srv : Server) (hlen : bytes.length = 12) :
    (truthy (jsGet (.obj fs) "id") = true →
      ∃ srv1, createUser ids bytes (.obj fs) srv = .ok (.obj fs, srv1)) ∧
    (truthy (jsGet (.obj fs) "id") = false →
      (∃ srv1, createUser ids bytes (.obj fs) srv =
        .ok (jsSet (.obj fs) "id" (.str (generateId bytes)), srv1)) ∧
      (generateId bytes).length = 24 ∧
      ∀ c ∈ (generateId bytes).data, c ∈ hexChars) := by
  constructor
  · intro ht
    have hc : createUser ids bytes (.obj fs) srv =
        .ok (.obj fs, (serverCreate ids.Users
          (wrapPayload (.obj [("orderId", jsGet (.obj fs) "id"), ("metadata", .obj fs)]))
          srv).2) := by
      unfold createUser createDocument
      simp only [ht]
      rfl
    exact ⟨_, hc⟩
  · intro hf
    have hc : createUser ids bytes (.obj fs) srv =
        .ok (jsSet (.obj fs) "id" (.str (generateId bytes)),
          (serverCreate ids.Users
            (wrapPayload (.obj
              [("orderId", jsGet (jsSet (.obj fs) "id" (.str (generateId bytes))) "id"),
               ("metadata", jsSet (.obj fs) "id" (.str (generateId bytes)))])) srv).2) := by
      unfold createUser createDocument
      simp only [hf]
      rfl
    refine ⟨⟨_, hc⟩, ?_, generateId_mem bytes⟩
    rw [generateId_length, hlen]

theorem claimC8_witness :
    (∃ srv1, createUser ⟨"U", "S", "V"⟩ [0, 1, 2, 3, 4, 5, 6, 7, 8, 9, 10, 11]
        (.obj [("email", .str "a@b.com")]) ⟨[], 0, []⟩ =
      .ok (jsSet (.obj [("email", .str "a@b.com")]) "id"
        (.str (generateId [0, 1, 2, 3, 4, 5, 6, 7, 8, 9, 10, 11])), srv1)) ∧
    (generateId [0, 1, 2, 3, 4, 5, 6, 7, 8, 9, 10, 11]).length = 24 ∧
    ∀ c ∈ (generateId [0, 1, 2, 3, 4, 5, 6, 7, 8, 9, 10, 11]).data, c ∈ hexChars :=
  (createUser_returns_input ⟨"U", "S", "V"⟩ [0, 1, 2, 3, 4, 5, 6, 7, 8, 9, 10, 11]
    [("email", .str "a@b.com")] ⟨[], 0, []⟩ rfl).2 rfl

/-- Claim C1 (code bug): with one non-archived user invoice stored (orderId
u1, metadata with id u1 and an email), getUser returns undefined rather than
the stored document, and getUserByEmail returns undefined rather than the
document plus btcpayId: the adapter reads the metadata property of a value
the client has already unwrapped. -/
theorem getUser_stored_user_returns_undefined :
    getUser ⟨"U", "S", "V"⟩ (.str "u1")
      ⟨[("U", [⟨"b1", "u1", .obj [("id", .str "u1"), ("email", .str "a@b.com")], false⟩])],
       0, []⟩ = .ok .undefined ∧
    getUserByEmail ⟨"U", "S", "V"⟩ (.str "a@b.com")
      ⟨[("U", [⟨"b1", "u1", .obj [("id", .str "u1"), ("email", .str "a@b.com")], false⟩])],
       0, []⟩ = .ok .undefined :=
  ⟨rfl, rfl⟩

/-- Claim C2 (code bug): with one non-archived verification-token invoice
stored whose metadata matches the given identifier, useVerificationToken
throws a TypeError (reading token of undefined) instead of comparing the
token and returning the metadata or null: the found invoice is already
unwrapped, so its metadata property is undefined. -/
theorem useVerificationToken_match_throws :
    useVerificationToken ⟨"U", "S", "V"⟩
      (.obj [("identifier", .str "a@b.com"), ("token", .str "t1")])
      ⟨[("V", [⟨"b4", "v1",
          .obj [("id", .str "v1"), ("identifier", .str "a@b.com"), ("token", .str "t1")],
          false⟩])], 0, []⟩ =
      .error "TypeError: cannot read property token of undefined" :=
  rfl

/-- Claim C3 (code bug): with a matching non-archived session and its
non-archived user both stored, getSessionAndUser returns null instead of the
session-user pair: the session read through findDocumentByField is the
metadata property of an already-unwrapped document, so it is undefined and
falsy. -/
theorem getSessionAndUser_match_returns_null :
    getSessionAndUser ⟨"U", "S", "V"⟩ (.str "tok")
      ⟨[("U", [⟨"b1", "u1", .obj [("id", .str "u1"), ("email", .str "a@b.com")], false⟩]),
        ("S", [⟨"b2", "s1",
          .obj [("id", .str "s1"), ("sessionToken", .str "tok"), ("userId", .str "u1")],
          false⟩])], 0, []⟩ = .ok .null :=
  rfl

theorem jsGetE_ok_eq (x : JSVal) (k : String) (a : JSVal) (h : jsGetE x k = .ok a) :
    a = jsGet x k := by
  rcases x with _ | _ | b | n | s | xs | fs
  · exact absurd h (by simp [jsGetE])
  · exact absurd h (by simp [jsGetE])
  · exact (Except.ok.inj h).symm
  · exact (Except.ok.inj h).symm
  · exact (Except.ok.inj h).symm
  · exact (Except.ok.inj h).symm
  · exact (Except.ok.inj h).symm

theorem findActiveE_ok (xs : List JSVal) (v : JSVal) (h : findActiveE xs = .ok v) :
    v = .undefined ∨ (v ∈ xs ∧ truthy (jsGet v "archived") = false) := by
  induction xs with
  | nil =>
    left
    exact (Except.ok.inj h).symm
  | cons inv rest ih =>
    rcases he : jsGetE inv "archived" with e | a
    · have hr : findActiveE (inv :: rest) = .error e := by
        unfold findActiveE
        rw [he]
      rw [hr] at h
      exact absurd h (by simp)
    · have hstep : findActiveE (inv :: rest) =
          (if truthy a = true then findActiveE rest else .ok inv) := by
        have h0 : findActiveE (inv :: rest) =
            (match jsGetE inv "archived" with
             | Except.error e => Except.error e
             | Except.ok a => if truthy a = true then findActiveE rest
               else Except.ok inv) := rfl
        rw [h0, he]
      rw [hstep] at h
      by_cases ht : truthy a = true
      · rw [if_pos ht] at h
        rcases ih h with h1 | ⟨hm, ha⟩
        · exact Or.inl h1
        · exact Or.inr ⟨List.mem_cons_of_mem _ hm, ha⟩
      · rw [if_neg ht] at h
        right
        have hv : inv = v := Except.ok.inj h
        subst hv
        refine ⟨List.mem_cons_self _ _, ?_⟩
        rw [← jsGetE_ok_eq inv "archived" a he]
        simpa using ht

theorem getResp_no_archived (xs : List JSVal) (v : JSVal)
    (h : getInvoiceByOrderIdResp (.arr xs) = .ok v) :
    v = .null ∨ ∃ inv ∈ xs, truthy (jsGet inv "archived") = false ∧ v = unwrapInvoice inv := by
  have h2 : (match findActiveE xs with
      | Except.error e => (Except.error e : Except String JSVal)
      | Except.ok activeInvoice =>
        Except.ok (if truthy activeInvoice = true then unwrapInvoice activeInvoice
          else JSVal.null)) = Except.ok v := h
  rcases hf : findActiveE xs with e | active
  · rw [hf] at h2
    exact absurd h2 (by simp)
  · rw [hf] at h2
    have hv : (if truthy active = true then unwrapInvoice active else JSVal.null) = v :=
      Except.ok.inj h2
    by_cases hta : truthy active = true
    · rcases findActiveE_ok xs active hf with h1 | ⟨hm, ha⟩
      · rw [h1] at hta
        exact absurd hta (by simp [truthy])
      · right
        refine ⟨active, hm, ha, ?_⟩
        rw [← hv]
        simp [hta]
    · left
      rw [← hv]
      simp [hta]

theorem filterActiveE_ok (xs : List JSVal) (l : List JSVal)
    (h : filterActiveE xs = .ok l) :
    ∀ d ∈ l, d ∈ xs ∧ truthy (jsGet d "archived") = false := by
  induction xs generalizing l with
  | nil =>
    have : l = [] := (Except.ok.inj h).symm
    subst this
    intro d hd
    exact absurd hd (by simp)
  | cons inv rest ih =>
    rcases he : jsGetE inv "archived" with e | a
    · have hr : filterActiveE (inv :: rest) = .error e := by
        conv_lhs => rw [show filterActiveE (inv :: rest) =
          (match jsGetE inv "archived" with
           | Except.error e => Except.error e
           | Except.ok a =>
             match filterActiveE rest with
             | Except.error e => Except.error e
             | Except.ok tail => Except.ok (if truthy a = true then tail else inv :: tail))
          from rfl]
        rw [he]
      rw [hr] at h
      exact absurd h (by simp)
    · rcases ht : filterActiveE rest with e | tail
      · have hr : filterActiveE (inv :: rest) = .error e := by
          conv_lhs => rw [show filterActiveE (inv :: rest) =
            (match jsGetE inv "archived" with
             | Except.error e => Except.error e
             | Except.ok a =>
               match filterActiveE rest with
               | Except.error e => Except.error e
               | Except.ok tail => Except.ok (if truthy a = true then tail else inv :: tail))
            from rfl]
          rw [he, ht]
        rw [hr] at h
        exact absurd h (by simp)
      · have hstep : filterActiveE (inv :: rest) =
            .ok (if truthy a = true then tail else inv :: tail) := by
          conv_lhs => rw [show filterActiveE (inv :: rest) =
            (match jsGetE inv "archived" with
             | Except.error e => Except.error e
             | Except.ok a =>
               match filterActiveE rest with
               | Except.error e => Except.error e
               | Except.ok tail => Except.ok (if truthy a = true then tail else inv :: tail))
            from rfl]
          rw [he, ht]
        rw [hstep] at h
        have hl : (if truthy a = true then tail else inv :: tail) = l := Except.ok.inj h
        by_cases hta : truthy a = true
        · rw [if_pos hta] at hl
          subst hl
          intro d hd
          have := ih tail ht d hd
          exact ⟨List.mem_cons_of_mem _ this.1, this.2⟩
        · rw [if_neg hta] at hl
          subst hl
          intro d hd
          rcases List.mem_cons.mp hd with hdi | hdt
          · subst hdi
            refine ⟨List.mem_cons_self _ _, ?_⟩
            rw [← jsGetE_ok_eq d "archived" a he]
            simpa using hta
          · have := ih tail ht d hdt
            exact ⟨List.mem_cons_of_mem _ this.1, this.2⟩

theorem listResp_no_archived (xs : List JSVal) (l : List JSVal)
    (h : listInvoicesResp (.arr xs) = .ok l) :
    ∀ d ∈ l, ∃ inv ∈ xs, truthy (jsGet inv "archived") = false ∧ d = unwrapInvoice inv := by
  have h2 : (match filterActiveE xs with
      | Except.error e => (Except.error e : Except String (List JSVal))
      | Except.ok active => Except.ok (active.map unwrapInvoice)) = Except.ok l := h
  rcases hf : filterActiveE xs with e | active
  · rw [hf] at h2
    exact absurd h2 (by simp)
  · rw [hf] at h2
    have hl : active.map unwrapInvoice = l := Except.ok.inj h2
    subst hl
    intro d hd
    rcases List.mem_map.mp hd with ⟨inv, hmi, hui⟩
    have := filterActiveE_ok xs active hf inv hmi
    exact ⟨inv, this.1, this.2, hui.symm⟩

theorem findResp_no_archived (xs : List JSVal) (key : String) (value : JSVal) (w : JSVal)
    (h : findInvoiceByMetadataResp (.arr xs) key value = .ok w) :
    w = .null ∨ ∃ inv ∈ xs, truthy (jsGet inv "archived") = false ∧ w = unwrapInvoice inv := by
  have h2 : (match listInvoicesResp (.arr xs) with
      | Except.error e => (Except.error e : Except String JSVal)
      | Except.ok invoices =>
        Except.ok (match invoices.find? (fun doc => truthy doc && jsEqb (jsGet doc key) value)
          with
          | some invoice => invoice
          | none => JSVal.null)) = Except.ok w := h
  rcases hf : listInvoicesResp (.arr xs) with e | invoices
  · rw [hf] at h2
    exact absurd h2 (by simp)
  · rw [hf] at h2
    have h3 : (Except.ok (match invoices.find?
        (fun doc => truthy doc && jsEqb (jsGet doc key) value) with
        | some invoice => invoice
        | none => JSVal.null) : Except String JSVal) = Except.ok w := h2
    rcases hw : invoices.find? (fun doc => truthy doc && jsEqb (jsGet doc key) value)
      with _ | i
    · rw [hw] at h3
      left
      exact (Except.ok.inj h3).symm
    · rw [hw] at h3
      have hwi : i = w := Except.ok.inj h3
      subst hwi
      have hmem := List.mem_of_find?_eq_some hw
      rcases listResp_no_archived xs invoices hf i hmem with ⟨inv, hmi, hai, hui⟩
      exact Or.inr ⟨inv, hmi, hai, hui⟩

/-- Claim C4: for every remote response list, an invoice whose archived flag
is truthy never appears in a read result: getInvoiceByOrderId yields null or
the unwrap of a non-archived entry, every listInvoices element is the unwrap
of a non-archived entry, and findInvoiceByMetadata yields null or the unwrap
of a non-archived entry (the stateful per-store operations are exactly these
response processors applied to the store's response). -/
theorem archived_invoices_invisible (xs : List JSVal) (key : String) (value : JSVal)
    (v w : JSVal) (l : List JSVal) :
    (getInvoiceByOrderIdResp (.arr xs) = .ok v →
      v = .null ∨ ∃ inv ∈ xs, truthy (jsGet inv "archived") = false ∧
        v = unwrapInvoice inv) ∧
    (listInvoicesResp (.arr xs) = .ok l →
      ∀ d ∈ l, ∃ inv ∈ xs, truthy (jsGet inv "archived") = false ∧
        d = unwrapInvoice inv) ∧
    (findInvoiceByMetadataResp (.arr xs) key value = .ok w →
      w = .null ∨ ∃ inv ∈ xs, truthy (jsGet inv "archived") = false ∧
        w = unwrapInvoice inv) :=
  ⟨getResp_no_archived xs v, listResp_no_archived xs l,
   findResp_no_archived xs key value w⟩

theorem claimC4_witness :
    ((JSVal.obj [("id", .str "o2"), ("btcpayId", .str "b2")]) = .null ∨
      ∃ inv ∈ [JSVal.obj [("archived", .bool true)],
               JSVal.obj [("id", .str "b2"), ("orderId", .str "o2"), ("archived", .bool false)]],
        truthy (jsGet inv "archived") = false ∧
        (JSVal.obj [("id", .str "o2"), ("btcpayId", .str "b2")]) = unwrapInvoice inv) ∧
    (∀ d ∈ [JSVal.obj [("id", .str "o2"), ("btcpayId", .str "b2")]],
      ∃ inv ∈ [JSVal.obj [("archived", .bool true)],
               JSVal.obj [("id", .str "b2"), ("orderId", .str "o2"), ("archived", .bool false)]],
        truthy (jsGet inv "archived") = false ∧ d = unwrapInvoice inv) ∧
    ((JSVal.obj [("id", .str "o2"), ("btcpayId", .str "b2")]) = .null ∨
      ∃ inv ∈ [JSVal.obj [("archived", .bool true)],
               JSVal.obj [("id", .str "b2"), ("orderId", .str "o2"), ("archived", .bool false)]],
        truthy (jsGet inv "archived") = false ∧
        (JSVal.obj [("id", .str "o2"), ("btcpayId", .str "b2")]) = unwrapInvoice inv) :=
  ⟨(archived_invoices_invisible
      [JSVal.obj [("archived", .bool true)],
       JSVal.obj [("id", .str "b2"), ("orderId", .str "o2"), ("archived", .bool false)]]
      "id" (.str "o2") (JSVal.obj [("id", .str "o2"), ("btcpayId", .str "b2")])
      (JSVal.obj [("id", .str "o2"), ("btcpayId", .str "b2")])
      [JSVal.obj [("id", .str "o2"), ("btcpayId", .str "b2")]]).1 rfl,
   (archived_invoices_invisible
      [JSVal.obj [("archived", .bool true)],
       JSVal.obj [("id", .str "b2"), ("orderId", .str "o2"), ("archived", .bool false)]]
      "id" (.str "o2") (JSVal.obj [("id", .str "o2"), ("btcpayId", .str "b2")])
      (JSVal.obj [("id", .str "o2"), ("btcpayId", .str "b2")])
      [JSVal.obj [("id", .str "o2"), ("btcpayId", .str "b2")]]).2.1 rfl,
   (archived_invoices_invisible
      [JSVal.obj [("archived", .bool true)],
       JSVal.obj [("id", .str "b2"), ("orderId", .str "o2"), ("archived", .bool false)]]
      "id" (.str "o2") (JSVal.obj [("id", .str "o2"), ("btcpayId", .str "b2")])
      (JSVal.obj [("id", .str "o2"), ("btcpayId", .str "b2")])
      [JSVal.obj [("id", .str "o2"), ("btcpayId", .str "b2")]]).2.2 rfl⟩

/-- Claim C5: on an order id with no non-archived invoice, updateInvoice and
archiveInvoice fail with their fixed not-found errors (the throw precedes any
mutation request by construction); and when the only invoice of an order id is
active, archiving succeeds once and a second archiveInvoice call on the
resulting state fails not-found. -/
theorem update_archive_not_found (sid o : String) (doc : JSVal) (srv : Server) :
    ((∀ q ∈ srv.getStore sid, q.orderId = o → q.archived = true) →
      updateInvoice sid (.str o) doc srv = .error "Invoice not found for update." ∧
      archiveInvoice sid (.str o) srv = .error "Invoice not found for archiving.") ∧
    (∀ r : InvoiceRec, (srv.getStore sid).filter (fun q => q.orderId == o) = [r] →
      r.archived = false → r.btcId ≠ "" →
      ∃ v srv1, archiveInvoice sid (.str o) srv = .ok (v, srv1) ∧
        archiveInvoice sid (.str o) srv1 = .error "Invoice not found for archiving.") := by
  constructor
  · intro h
    have hno := findActiveOrder_eq_none (srv.getStore sid) o h
    exact ⟨updateInvoice_not_found sid o doc srv hno,
           archiveInvoice_not_found sid o srv hno⟩
  · intro r h1 h2 h3
    have hfo : findActiveOrder (srv.getStore sid) o = some r := by
      unfold findActiveOrder
      rw [h1]
      simp [List.find?, h2]
    have hrmem : r ∈ srv.getStore sid := by
      have hm : r ∈ (srv.getStore sid).filter (fun q => q.orderId == o) := by
        rw [h1]
        exact List.mem_singleton.mpr rfl
      exact List.mem_of_mem_filter hm
    obtain ⟨q, hq⟩ := find?_btcId_isSome (srv.getStore sid) r hrmem
    have harch := archiveInvoice_found sid o srv r hfo h3
    rw [hq] at harch
    refine ⟨_, _, harch, ?_⟩
    apply archiveInvoice_not_found
    apply findActiveOrder_eq_none
    intro q' hq' ho'
    have hg : ({ srv.setStore sid (archiveBtc r.btcId (srv.getStore sid)) with
        log := srv.log ++ [(sid, r.btcId)] } : Server).getStore sid =
        archiveBtc r.btcId (srv.getStore sid) :=
      getStore_setStore_self srv sid (archiveBtc r.btcId (srv.getStore sid))
    rw [hg] at hq'
    unfold archiveBtc at hq'
    obtain ⟨p, hp, hfp⟩ := List.mem_map.mp hq'
    by_cases hb : (p.btcId == r.btcId) = true
    · rw [if_pos hb] at hfp
      rw [← hfp]
    · rw [if_neg hb] at hfp
      subst hfp
      have hpo : p.orderId = o := ho'
      have hpf : p ∈ (srv.getStore sid).filter (fun q => q.orderId == o) :=
        List.mem_filter.mpr ⟨hp, by simp [hpo]⟩
      rw [h1] at hpf
      have hpr : p = r := List.mem_singleton.mp hpf
      subst hpr
      exact absurd (by simp) hb

theorem claimC5_witness :
    (updateInvoice "U" (.str "o1") (.obj [])
        ⟨[("U", [⟨"b1", "o1", .obj [], true⟩])], 0, []⟩ =
      .error "Invoice not found for update." ∧
     archiveInvoice "U" (.str "o1")
        ⟨[("U", [⟨"b1", "o1", .obj [], true⟩])], 0, []⟩ =
      .error "Invoice not found for archiving.") ∧
    (∃ v srv1, archiveInvoice "U" (.str "o1")
        ⟨[("U", [⟨"b1", "o1", .obj [], false⟩])], 0, []⟩ = .ok (v, srv1) ∧
      archiveInvoice "U" (.str "o1") srv1 = .error "Invoice not found for archiving.") := by
  constructor
  · apply (update_archive_not_found "U" "o1" (.obj [])
      ⟨[("U", [⟨"b1", "o1", .obj [], true⟩])], 0, []⟩).1
    intro q hq _
    have he : (⟨[("U", [⟨"b1", "o1", .obj [], true⟩])], 0, []⟩ : Server).getStore "U" =
        [⟨"b1", "o1", .obj [], true⟩] := rfl
    rw [he] at hq
    rw [List.mem_singleton.mp hq]
  · exact (update_archive_not_found "U" "o1" (.obj [])
      ⟨[("U", [⟨"b1", "o1", .obj [], false⟩])], 0, []⟩).2
      ⟨"b1", "o1", .obj [], false⟩ rfl rfl (by decide)

theorem wf_unique_orderId (invs : List InvoiceRec) (hwf : WFStore invs)
    {q r : InvoiceRec} (hq : q ∈ invs) (hr : r ∈ invs) (h : q.orderId = r.orderId) :
    q = r := by
  by_cases hqr : q = r
  · exact hqr
  · have hsym : Symmetric (fun a b : InvoiceRec =>
        a.orderId ≠ b.orderId ∧ a.btcId ≠ b.btcId) := by
      intro a b hab
      exact ⟨hab.1.symm, hab.2.symm⟩
    exact absurd h (List.Pairwise.forall hsym hwf.2 hq hr hqr).1

theorem wf_unique_btcId (invs : List InvoiceRec) (hwf : WFStore invs)
    {q r : InvoiceRec} (hq : q ∈ invs) (hr : r ∈ invs) (h : q.btcId = r.btcId) :
    q = r := by
  by_cases hqr : q = r
  · exact hqr
  · have hsym : Symmetric (fun a b : InvoiceRec =>
        a.orderId ≠ b.orderId ∧ a.btcId ≠ b.btcId) := by
      intro a b hab
      exact ⟨hab.1.symm, hab.2.symm⟩
    exact absurd h (List.Pairwise.forall hsym hwf.2 hq hr hqr).2

theorem find?_active_single (l : List InvoiceRec) (r : InvoiceRec) (hne : l ≠ [])
    (hall : ∀ x ∈ l, x = r) (hact : r.archived = false) :
    l.find? (fun x => !x.archived) = some r := by
  cases l with
  | nil => exact absurd rfl hne
  | cons x xs =>
    have hx : x = r := hall x (List.mem_cons_self x xs)
    subst hx
    simp [List.find?, hact]

theorem findActiveOrder_of_unique (invs : List InvoiceRec) (r : InvoiceRec)
    (hr : r ∈ invs) (hact : r.archived = false)
    (huni : ∀ q ∈ invs, q.orderId = r.orderId → q = r) :
    findActiveOrder invs r.orderId = some r := by
  unfold findActiveOrder
  apply find?_active_single
  · have hm : r ∈ invs.filter (fun q => q.orderId == r.orderId) :=
      List.mem_filter.mpr ⟨hr, by simp⟩
    exact List.ne_nil_of_mem hm
  · intro x hx
    have hm := List.mem_filter.mp hx
    exact huni x hm.1 (by simpa using hm.2)
  · exact hact

theorem archiveBtcs_nil (l : List InvoiceRec) : archiveBtcs [] l = l := by
  unfold archiveBtcs
  simp

theorem archiveBtcs_cons (b : String) (bs : List String) (l : List InvoiceRec) :
    archiveBtcs bs (archiveBtc b l) = archiveBtcs (b :: bs) l := by
  unfold archiveBtcs archiveBtc
  rw [List.map_map]
  congr 1
  funext q
  by_cases hqb : (q.btcId == b) = true
  · simp only [Function.comp, hqb, if_pos, List.contains_cons, Bool.or_eq_true, if_true]
    by_cases hbs : (bs.contains q.btcId) = true
    · simp [hbs, hqb]
    · simp [hbs, hqb]
  · simp only [Function.comp, hqb, if_false, List.contains_cons, Bool.or_eq_true]
    by_cases hbs : (bs.contains q.btcId) = true
    · simp [hbs, hqb]
    · simp [hbs, hqb]

theorem archiveEach_cons_ok (sid : String) (doc : JSVal) (docs : List JSVal)
    (srv srv2 : Server) (v : JSVal)
    (h : archiveInvoice sid (jsGet doc "id") srv = .ok (v, srv2)) :
    archiveEach sid (doc :: docs) srv =
      (match archiveEach sid docs srv2 with
       | .error e => .error e
       | .ok res2 => .ok (v :: res2.1, res2.2)) := by
  have hstep : archiveEach sid (doc :: docs) srv =
      (match archiveInvoice sid (jsGet doc "id") srv with
       | .error e => .error e
       | .ok res =>
         match archiveEach sid docs res.2 with
         | .error e => .error e
         | .ok res2 => .ok (res.1 :: res2.1, res2.2)) := rfl
  rw [hstep, h]

theorem archiveEach_spec (sid : String) (rs : List InvoiceRec) :
    ∀ (srv : Server),
    (∀ r ∈ rs, r ∈ srv.getStore sid ∧ r.archived = false ∧ r.btcId ≠ "" ∧ metaIdOk r) →
    (∀ q ∈ srv.getStore sid, ∀ r ∈ rs, q.orderId = r.orderId → q = r) →
    (∀ q ∈ srv.getStore sid, ∀ r ∈ rs, q.btcId = r.btcId → q = r) →
    List.Pairwise (fun a b => a.orderId ≠ b.orderId) rs →
    ∃ res srv1,
      archiveEach sid (rs.map (fun r => unwrapInvoice r.toJS)) srv = .ok (res, srv1) ∧
      srv1.getStore sid = archiveBtcs (rs.map InvoiceRec.btcId) (srv.getStore sid) ∧
      (∀ sid2, sid2 ≠ sid → srv1.getStore sid2 = srv.getStore sid2) ∧
      srv1.log = srv.log ++ rs.map (fun r => (sid, r.btcId)) := by
  induction rs with
  | nil =>
    intro srv _ _ _ _
    refine ⟨[], srv, rfl, ?_, fun _ _ => rfl, by simp⟩
    simp [archiveBtcs_nil]
  | cons r rest ih =>
    intro srv hsub huniO huniB hpw
    obtain ⟨hrmem, hract, hrbtc, hrmeta⟩ := hsub r (List.mem_cons_self r rest)
    have hpwc := List.pairwise_cons.mp hpw
    have hfo : findActiveOrder (srv.getStore sid) r.orderId = some r :=
      findActiveOrder_of_unique _ r hrmem hract
        (fun q hq ho => huniO q hq r (List.mem_cons_self r rest) ho)
    obtain ⟨q, hq⟩ := find?_btcId_isSome (srv.getStore sid) r hrmem
    have harch := archiveInvoice_found sid r.orderId srv r hfo hrbtc
    rw [hq] at harch
    have hg2self : ({ srv.setStore sid (archiveBtc r.btcId (srv.getStore sid)) with
        log := srv.log ++ [(sid, r.btcId)] } : Server).getStore sid =
        archiveBtc r.btcId (srv.getStore sid) :=
      getStore_setStore_self srv sid (archiveBtc r.btcId (srv.getStore sid))
    have hg2ne : ∀ sid2, sid2 ≠ sid →
        ({ srv.setStore sid (archiveBtc r.btcId (srv.getStore sid)) with
          log := srv.log ++ [(sid, r.btcId)] } : Server).getStore sid2 =
          srv.getStore sid2 :=
      fun sid2 h2 => getStore_setStore_ne srv sid sid2 _ h2
    have hbtcne : ∀ r' ∈ rest, r'.btcId ≠ r.btcId := by
      intro r' hr' hbe
      obtain ⟨hm', _, _, _⟩ := hsub r' (List.mem_cons_of_mem _ hr')
      have heq : r' = r := huniB r' hm' r (List.mem_cons_self r rest) hbe
      have hpo : r.orderId ≠ r'.orderId := hpwc.1 r' hr'
      rw [heq] at hpo
      exact hpo rfl
    have hsub2 : ∀ r' ∈ rest,
        r' ∈ ({ srv.setStore sid (archiveBtc r.btcId (srv.getStore sid)) with
          log := srv.log ++ [(sid, r.btcId)] } : Server).getStore sid ∧
        r'.archived = false ∧ r'.btcId ≠ "" ∧ metaIdOk r' := by
      intro r' hr'
      obtain ⟨hm', ha', hb', hmeta'⟩ := hsub r' (List.mem_cons_of_mem _ hr')
      refine ⟨?_, ha', hb', hmeta'⟩
      rw [hg2self]
      unfold archiveBtc
      refine List.mem_map.mpr ⟨r', hm', ?_⟩
      have e : (r'.btcId == r.btcId) = false := by
        simp [beq_eq_false_iff_ne]
        exact hbtcne r' hr'
      rw [if_neg (by simp [e])]
    have hproj : ∀ p : InvoiceRec,
        ((if (p.btcId == r.btcId) = true then { p with archived := true } else p).orderId
            = p.orderId) ∧
        ((if (p.btcId == r.btcId) = true then { p with archived := true } else p).btcId
            = p.btcId) := by
      intro p
      by_cases hpb : (p.btcId == r.btcId) = true
      · rw [if_pos hpb]
        exact ⟨rfl, rfl⟩
      · rw [if_neg hpb]
        exact ⟨rfl, rfl⟩
    have hfix : ∀ r' ∈ rest,
        (if (r'.btcId == r.btcId) = true then { r' with archived := true } else r') = r' := by
      intro r' hr'
      have e : (r'.btcId == r.btcId) = false := by
        simp [beq_eq_false_iff_ne]
        exact hbtcne r' hr'
      rw [if_neg (by simp [e])]
    have huniO2 : ∀ q' ∈ ({ srv.setStore sid (archiveBtc r.btcId (srv.getStore sid)) with
          log := srv.log ++ [(sid, r.btcId)] } : Server).getStore sid,
        ∀ r' ∈ rest, q'.orderId = r'.orderId → q' = r' := by
      intro q' hq' r' hr' ho
      rw [hg2self] at hq'
      unfold archiveBtc at hq'
      obtain ⟨p, hp, hfp⟩ := List.mem_map.mp hq'
      have hoid : q'.orderId = p.orderId := by
        rw [← hfp]
        exact (hproj p).1
      have hpr : p = r' := huniO p hp r' (List.mem_cons_of_mem _ hr') (hoid ▸ ho)
      subst hpr
      rw [← hfp]
      exact hfix p hr'
    have huniB2 : ∀ q' ∈ ({ srv.setStore sid (archiveBtc r.btcId (srv.getStore sid)) with
          log := srv.log ++ [(sid, r.btcId)] } : Server).getStore sid,
        ∀ r' ∈ rest, q'.btcId = r'.btcId → q' = r' := by
      intro q' hq' r' hr' hb
      rw [hg2self] at hq'
      unfold archiveBtc at hq'
      obtain ⟨p, hp, hfp⟩ := List.mem_map.mp hq'
      have hbid : q'.btcId = p.btcId := by
        rw [← hfp]
        exact (hproj p).2
      have hpr : p = r' := huniB p hp r' (List.mem_cons_of_mem _ hr') (hbid ▸ hb)
      subst hpr
      rw [← hfp]
      exact hfix p hr'
    obtain ⟨res2, srv3, heach, hga, hgb, hlog⟩ :=
      ih { srv.setStore sid (archiveBtc r.btcId (srv.getStore sid)) with
        log := srv.log ++ [(sid, r.btcId)] } hsub2 huniO2 huniB2 hpwc.2
    refine ⟨unwrapInvoice (InvoiceRec.toJS { q with archived := true }) :: res2, srv3,
      ?_, ?_, ?_, ?_⟩
    · have harch2 : archiveInvoice sid
          (jsGet (unwrapInvoice r.toJS) "id") srv =
          .ok (unwrapInvoice (InvoiceRec.toJS { q with archived := true }),
            { srv.setStore sid (archiveBtc r.btcId (srv.getStore sid)) with
              log := srv.log ++ [(sid, r.btcId)] }) := by
        rw [jsGet_unwrap_id r hrmeta]
        exact harch
      have hcons := archiveEach_cons_ok sid (unwrapInvoice r.toJS)
        (rest.map (fun r => unwrapInvoice r.toJS)) srv _ _ harch2
      rw [List.map_cons, hcons, heach]
    · rw [hga, hg2self, archiveBtcs_cons]
      rfl
    · intro sid2 h2
      rw [hgb sid2 h2, hg2ne sid2 h2]
    · rw [hlog]
      show (srv.log ++ [(sid, r.btcId)]) ++ rest.map (fun r => (sid, r.btcId)) = _
      rw [List.append_assoc]
      rfl

theorem archiveInvoicesByMetadata_spec (sid key : String) (value : JSVal) (srv : Server)
    (hwf : WFStore (srv.getStore sid)) :
    ∃ res srv1, archiveInvoicesByMetadata sid key value srv = .ok (res, srv1) ∧
      srv1.getStore sid = archiveBtcs
        (((srv.getStore sid).filter (fun r =>
          jsEqb (jsGet (unwrapInvoice r.toJS) key) value && !r.archived)).map
          InvoiceRec.btcId)
        (srv.getStore sid) ∧
      (∀ sid2, sid2 ≠ sid → srv1.getStore sid2 = srv.getStore sid2) ∧
      srv1.log = srv.log ++
        ((srv.getStore sid).filter (fun r =>
          jsEqb (jsGet (unwrapInvoice r.toJS) key) value && !r.archived)).map
          (fun r => (sid, r.btcId)) := by
  have h1 : archiveInvoicesByMetadata sid key value srv =
      (match listInvoices sid (.obj []) srv with
       | .error e => .error e
       | .ok invoices => archiveEach sid
           (invoices.filter (fun doc => truthy doc && jsEqb (jsGet doc key) value)) srv) :=
    rfl
  rw [h1, listInvoices_eq]
  have hfil : (((srv.getStore sid).filter (fun r => !r.archived)).map
        (fun r => unwrapInvoice r.toJS)).filter
        (fun doc => truthy doc && jsEqb (jsGet doc key) value) =
      ((srv.getStore sid).filter (fun r =>
        jsEqb (jsGet (unwrapInvoice r.toJS) key) value && !r.archived)).map
        (fun r => unwrapInvoice r.toJS) := by
    rw [List.filter_map]
    have hp : ((fun doc => truthy doc && jsEqb (jsGet doc key) value) ∘
          fun r : InvoiceRec => unwrapInvoice r.toJS) =
        fun r : InvoiceRec => jsEqb (jsGet (unwrapInvoice r.toJS) key) value := by
      funext r
      simp [Function.comp, truthy_unwrap_toJS]
    rw [hp, List.filter_filter]
  show ∃ res srv1,
      archiveEach sid ((((srv.getStore sid).filter (fun r => !r.archived)).map
        (fun r => unwrapInvoice r.toJS)).filter
        (fun doc => truthy doc && jsEqb (jsGet doc key) value)) srv = .ok (res, srv1) ∧ _
  rw [hfil]
  apply archiveEach_spec
  · intro r hr
    have hm := List.mem_filter.mp hr
    have hw := hwf.1 r hm.1
    have hact : r.archived = false := by
      have h2 := hm.2
      simp at h2
      exact h2.2
    exact ⟨hm.1, hact, hw.1, hw.2⟩
  · intro q hq r hr ho
    exact wf_unique_orderId _ hwf hq (List.mem_of_mem_filter hr) ho
  · intro q hq r hr hb
    exact wf_unique_btcId _ hwf hq (List.mem_of_mem_filter hr) hb
  · exact ((List.Pairwise.sublist (List.filter_sublist _) hwf.2).imp (fun h => h.1))

theorem archiveInvoice_postcond (sid o : String) (srv : Server)
    (hwf : WFStore (srv.getStore sid)) (v : JSVal) (srv1 : Server)
    (h : archiveInvoice sid (.str o) srv = .ok (v, srv1)) :
    (∀ q ∈ srv1.getStore sid, q.orderId = o → q.archived = true) ∧
    (∀ sid2, sid2 ≠ sid → srv1.getStore sid2 = srv.getStore sid2) ∧
    ∃ b, srv1.log = srv.log ++ [(sid, b)] := by
  rcases hfo : findActiveOrder (srv.getStore sid) o with _ | r
  · rw [archiveInvoice_not_found sid o srv hfo] at h
    exact absurd h (by simp)
  · obtain ⟨hrmem, hro, hract⟩ := findActiveOrder_mem _ _ _ hfo
    have hrbtc : r.btcId ≠ "" := (hwf.1 r hrmem).1
    obtain ⟨q, hq⟩ := find?_btcId_isSome (srv.getStore sid) r hrmem
    have harch := archiveInvoice_found sid o srv r hfo hrbtc
    rw [hq] at harch
    rw [harch] at h
    have hpair := Except.ok.inj h
    have hsrv : srv1 = { srv.setStore sid (archiveBtc r.btcId (srv.getStore sid)) with
        log := srv.log ++ [(sid, r.btcId)] } := (congrArg Prod.snd hpair).symm
    subst hsrv
    have hg : ({ srv.setStore sid (archiveBtc r.btcId (srv.getStore sid)) with
        log := srv.log ++ [(sid, r.btcId)] } : Server).getStore sid =
        archiveBtc r.btcId (srv.getStore sid) :=
      getStore_setStore_self srv sid (archiveBtc r.btcId (srv.getStore sid))
    refine ⟨?_, ?_, ⟨r.btcId, rfl⟩⟩
    · intro q' hq' ho'
      rw [hg] at hq'
      unfold archiveBtc at hq'
      obtain ⟨p, hp, hfp⟩ := List.mem_map.mp hq'
      by_cases hpb : (p.btcId == r.btcId) = true
      · rw [if_pos hpb] at hfp
        rw [← hfp]
      · rw [if_neg hpb] at hfp
        subst hfp
        have hpr : p = r := wf_unique_orderId _ hwf hp hrmem (ho'.trans hro.symm)
        rw [hpr] at hpb
        exact absurd (by simp) hpb
    · intro sid2 h2
      exact getStore_setStore_ne srv sid sid2 _ h2

/-- Claim C7: after deleteUser(id) completes on well-formed stores with
distinct store identifiers, the user's invoice (the Users invoice with that
order id) is archived, every session whose metadata userId strictly equals id
is archived, every verification token whose metadata userId strictly equals
id is archived, and the archive requests were issued in the order user first,
then sessions, then verification tokens (read off the service's archive log). -/
theorem deleteUser_cascade (ids : StoreIds) (uid : String) (srv : Server)
    (hd1 : ids.Users ≠ ids.Sessions) (hd2 : ids.Users ≠ ids.VerificationTokens)
    (hd3 : ids.Sessions ≠ ids.VerificationTokens)
    (hwfU : WFStore (srv.getStore ids.Users))
    (hwfS : WFStore (srv.getStore ids.Sessions))
    (hwfV : WFStore (srv.getStore ids.VerificationTokens))
    (v : JSVal) (srv3 : Server)
    (hok : deleteUser ids (.str uid) srv = .ok (v, srv3)) :
    (∀ q ∈ srv3.getStore ids.Users, q.orderId = uid → q.archived = true) ∧
    (∀ q ∈ srv3.getStore ids.Sessions,
      jsEqb (jsGet q.metadata "userId") (.str uid) = true → q.archived = true) ∧
    (∀ q ∈ srv3.getStore ids.VerificationTokens,
      jsEqb (jsGet q.metadata "userId") (.str uid) = true → q.archived = true) ∧
    ∃ l1 l2 l3, srv3.log = srv.log ++ l1 ++ l2 ++ l3 ∧ l1 ≠ [] ∧
      (∀ e ∈ l1, e.1 = ids.Users) ∧ (∀ e ∈ l2, e.1 = ids.Sessions) ∧
      (∀ e ∈ l3, e.1 = ids.VerificationTokens) := by
  have hd0 : deleteUser ids (.str uid) srv =
      (match archiveInvoice ids.Users (.str uid) srv with
       | .error e => .error e
       | .ok res1 =>
         match archiveInvoicesByMetadata ids.Sessions "userId" (.str uid) res1.2 with
         | .error e => .error e
         | .ok res2 =>
           match archiveInvoicesByMetadata ids.VerificationTokens "userId" (.str uid)
             res2.2 with
           | .error e => .error e
           | .ok res3 => .ok (.undefined, res3.2)) := rfl
  rcases h1 : archiveInvoice ids.Users (.str uid) srv with e | res1
  · have hkill : deleteUser ids (.str uid) srv = .error e := by
      rw [hd0, h1]
    rw [hkill] at hok
    exact absurd hok (by simp)
  · obtain ⟨v1, srv1⟩ := res1
    have hpost1 := archiveInvoice_postcond ids.Users uid srv hwfU v1 srv1 h1
    have hS1 : srv1.getStore ids.Sessions = srv.getStore ids.Sessions :=
      hpost1.2.1 ids.Sessions (Ne.symm hd1)
    have hV1 : srv1.getStore ids.VerificationTokens = srv.getStore ids.VerificationTokens :=
      hpost1.2.1 ids.VerificationTokens (Ne.symm hd2)
    have hwfS1 : WFStore (srv1.getStore ids.Sessions) := by
      rw [hS1]
      exact hwfS
    obtain ⟨res2, srv2, h2, hS2, hNe2, hlog2⟩ :=
      archiveInvoicesByMetadata_spec ids.Sessions "userId" (.str uid) srv1 hwfS1
    have hU2 : srv2.getStore ids.Users = srv1.getStore ids.Users :=
      hNe2 ids.Users hd1
    have hV2 : srv2.getStore ids.VerificationTokens = srv1.getStore ids.VerificationTokens :=
      hNe2 ids.VerificationTokens (Ne.symm hd3)
    have hwfV2 : WFStore (srv2.getStore ids.VerificationTokens) := by
      rw [hV2, hV1]
      exact hwfV
    obtain ⟨res3, srv3w, h3, hV3, hNe3, hlog3⟩ :=
      archiveInvoicesByMetadata_spec ids.VerificationTokens "userId" (.str uid) srv2 hwfV2
    have hdone : deleteUser ids (.str uid) srv = .ok (.undefined, srv3w) := by
      have hstep1 : deleteUser ids (.str uid) srv =
          (match archiveInvoicesByMetadata ids.Sessions "userId" (.str uid) srv1 with
           | .error e => .error e
           | .ok res2 =>
             match archiveInvoicesByMetadata ids.VerificationTokens "userId" (.str uid)
               res2.2 with
             | .error e => .error e
             | .ok res3 => .ok (.undefined, res3.2)) := by
        rw [hd0, h1]
      rw [hstep1, h2]
      have hstep2 : (match archiveInvoicesByMetadata ids.VerificationTokens "userId"
            (.str uid) srv2 with
          | .error e => (.error e : Except String (JSVal × Server))
          | .ok res3 => .ok (.undefined, res3.2)) = .ok (.undefined, srv3w) := by
        rw [h3]
      exact hstep2
    rw [hdone] at hok
    have hsrv3 : srv3 = srv3w := (congrArg Prod.snd (Except.ok.inj hok)).symm
    subst hsrv3
    refine ⟨?_, ?_, ?_, ?_⟩
    · intro q hq ho
      rw [hNe3 ids.Users hd2, hU2] at hq
      exact hpost1.1 q hq ho
    · intro q hq hmatch
      rw [hNe3 ids.Sessions hd3, hS2, hS1] at hq
      unfold archiveBtcs at hq
      obtain ⟨p, hp, hfp⟩ := List.mem_map.mp hq
      by_cases hpc : ((((srv.getStore ids.Sessions).filter (fun r =>
          jsEqb (jsGet (unwrapInvoice r.toJS) "userId") (.str uid) && !r.archived)).map
          InvoiceRec.btcId).contains p.btcId) = true
      · rw [if_pos hpc] at hfp
        rw [← hfp]
      · rw [if_neg hpc] at hfp
        subst hfp
        rcases hpa : p.archived with _ | _
        · exfalso
          have hmeta : metaIdOk p := ((by rwa [hS1] at hwfS1 : WFStore
              (srv.getStore ids.Sessions)).1 p hp).2
          have hmatch2 : jsEqb (jsGet (unwrapInvoice p.toJS) "userId") (.str uid) = true := by
            rw [jsGet_unwrap_other p "userId" hmeta (by decide) (by decide)]
            exact hmatch
          have hqf : p ∈ (srv.getStore ids.Sessions).filter (fun r =>
              jsEqb (jsGet (unwrapInvoice r.toJS) "userId") (.str uid) && !r.archived) :=
            List.mem_filter.mpr ⟨hp, by simp [hmatch2, hpa]⟩
          have hbmem : p.btcId ∈ ((srv.getStore ids.Sessions).filter (fun r =>
              jsEqb (jsGet (unwrapInvoice r.toJS) "userId") (.str uid) && !r.archived)).map
              InvoiceRec.btcId := List.mem_map_of_mem _ hqf
          have : ((((srv.getStore ids.Sessions).filter (fun r =>
              jsEqb (jsGet (unwrapInvoice r.toJS) "userId") (.str uid) && !r.archived)).map
              InvoiceRec.btcId).contains p.btcId) = true := by
            rw [List.contains_iff_exists_mem_beq]
            exact ⟨p.btcId, hbmem, by simp⟩
          exact absurd this hpc
        · rfl
    · intro q hq hmatch
      rw [hV3, hV2, hV1] at hq
      unfold archiveBtcs at hq
      obtain ⟨p, hp, hfp⟩ := List.mem_map.mp hq
      by_cases hpc : ((((srv.getStore ids.VerificationTokens).filter (fun r =>
          jsEqb (jsGet (unwrapInvoice r.toJS) "userId") (.str uid) && !r.archived)).map
          InvoiceRec.btcId).contains p.btcId) = true
      · rw [if_pos hpc] at hfp
        rw [← hfp]
      · rw [if_neg hpc] at hfp
        subst hfp
        rcases hpa : p.archived with _ | _
        · exfalso
          have hmeta : metaIdOk p := (hwfV.1 p hp).2
          have hmatch2 : jsEqb (jsGet (unwrapInvoice p.toJS) "userId") (.str uid) = true := by
            rw [jsGet_unwrap_other p "userId" hmeta (by decide) (by decide)]
            exact hmatch
          have hqf : p ∈ (srv.getStore ids.VerificationTokens).filter (fun r =>
              jsEqb (jsGet (unwrapInvoice r.toJS) "userId") (.str uid) && !r.archived) :=
            List.mem_filter.mpr ⟨hp, by simp [hmatch2, hpa]⟩
          have hbmem : p.btcId ∈ ((srv.getStore ids.VerificationTokens).filter (fun r =>
              jsEqb (jsGet (unwrapInvoice r.toJS) "userId") (.str uid) && !r.archived)).map
              InvoiceRec.btcId := List.mem_map_of_mem _ hqf
          have : ((((srv.getStore ids.VerificationTokens).filter (fun r =>
              jsEqb (jsGet (unwrapInvoice r.toJS) "userId") (.str uid) && !r.archived)).map
              InvoiceRec.btcId).contains p.btcId) = true := by
            rw [List.contains_iff_exists_mem_beq]
            exact ⟨p.btcId, hbmem, by simp⟩
          exact absurd this hpc
        · rfl
    · obtain ⟨b, hb⟩ := hpost1.2.2
      refine ⟨[(ids.Users, b)],
        ((srv1.getStore ids.Sessions).filter (fun r =>
          jsEqb (jsGet (unwrapInvoice r.toJS) "userId") (.str uid) && !r.archived)).map
          (fun r => (ids.Sessions, r.btcId)),
        ((srv2.getStore ids.VerificationTokens).filter (fun r =>
          jsEqb (jsGet (unwrapInvoice r.toJS) "userId") (.str uid) && !r.archived)).map
          (fun r => (ids.VerificationTokens, r.btcId)), ?_, by simp, ?_, ?_, ?_⟩
      · rw [hlog3, hlog2, hb]
      · intro e he
        rw [List.mem_singleton.mp he]
      · intro e he
        obtain ⟨p, _, hpe⟩ := List.mem_map.mp he
        rw [← hpe]
      · intro e he
        obtain ⟨p, _, hpe⟩ := List.mem_map.mp he
        rw [← hpe]

theorem claimC7_witness :
    (∀ q ∈ [(⟨"b1", "u1", .obj [("id", .str "u1"), ("email", .str "a@b.com")],
        true⟩ : InvoiceRec)],
      q.orderId = "u1" → q.archived = true) ∧
    (∀ q ∈ [(⟨"b2", "s1", .obj [("id", .str "s1"), ("sessionToken", .str "tok"),
          ("userId", .str "u1")], true⟩ : InvoiceRec),
        ⟨"b3", "s2", .obj [("id", .str "s2"), ("sessionToken", .str "tok2"),
          ("userId", .str "u2")], false⟩],
      jsEqb (jsGet q.metadata "userId") (.str "u1") = true → q.archived = true) ∧
    (∀ q ∈ [(⟨"b4", "v1", .obj [("id", .str "v1"), ("identifier", .str "a@b.com"),
          ("token", .str "t1"), ("userId", .str "u1")], true⟩ : InvoiceRec)],
      jsEqb (jsGet q.metadata "userId") (.str "u1") = true → q.archived = true) ∧
    ∃ l1 l2 l3, ([("U", "b1"), ("S", "b2"), ("V", "b4")] : List (String × String)) =
        [] ++ l1 ++ l2 ++ l3 ∧ l1 ≠ [] ∧
      (∀ e ∈ l1, e.1 = "U") ∧ (∀ e ∈ l2, e.1 = "S") ∧ (∀ e ∈ l3, e.1 = "V") :=
  deleteUser_cascade ⟨"U", "S", "V"⟩ "u1"
    ⟨[("U", [⟨"b1", "u1", .obj [("id", .str "u1"), ("email", .str "a@b.com")], false⟩]),
      ("S", [⟨"b2", "s1", .obj [("id", .str "s1"), ("sessionToken", .str "tok"),
          ("userId", .str "u1")], false⟩,
        ⟨"b3", "s2", .obj [("id", .str "s2"), ("sessionToken", .str "tok2"),
          ("userId", .str "u2")], false⟩]),
      ("V", [⟨"b4", "v1", .obj [("id", .str "v1"), ("identifier", .str "a@b.com"),
          ("token", .str "t1"), ("userId", .str "u1")], false⟩])], 0, []⟩
    (by decide) (by decide) (by decide)
    (by
      refine ⟨?_, ?_⟩
      · intro r hr
        replace hr : r ∈ [(⟨"b1", "u1", .obj [("id", .str "u1"),
            ("email", .str "a@b.com")], false⟩ : InvoiceRec)] := hr
        rw [List.mem_singleton] at hr
        subst hr
        exact ⟨by decide, by decide, rfl⟩
      · exact List.pairwise_singleton _ _)
    (by
      refine ⟨?_, ?_⟩
      · intro r hr
        replace hr : r ∈ [(⟨"b2", "s1", .obj [("id", .str "s1"),
            ("sessionToken", .str "tok"), ("userId", .str "u1")], false⟩ : InvoiceRec),
          ⟨"b3", "s2", .obj [("id", .str "s2"), ("sessionToken", .str "tok2"),
            ("userId", .str "u2")], false⟩] := hr
        rcases List.mem_cons.mp hr with h | h
        · subst h
          exact ⟨by decide, by decide, rfl⟩
        · rw [List.mem_singleton] at h
          subst h
          exact ⟨by decide, by decide, rfl⟩
      · refine List.Pairwise.cons ?_ (List.pairwise_singleton _ _)
        intro b hb
        rw [List.mem_singleton] at hb
        subst hb
        exact ⟨by decide, by decide⟩)
    (by
      refine ⟨?_, ?_⟩
      · intro r hr
        replace hr : r ∈ [(⟨"b4", "v1", .obj [("id", .str "v1"),
            ("identifier", .str "a@b.com"), ("token", .str "t1"),
            ("userId", .str "u1")], false⟩ : InvoiceRec)] := hr
        rw [List.mem_singleton] at hr
        subst hr
        exact ⟨by decide, by decide, rfl⟩
      · exact List.pairwise_singleton _ _)
    .undefined
    ⟨[("U", [⟨"b1", "u1", .obj [("id", .str "u1"), ("email", .str "a@b.com")], true⟩]),
      ("S", [⟨"b2", "s1", .obj [("id", .str "s1"), ("sessionToken", .str "tok"),
          ("userId", .str "u1")], true⟩,
        ⟨"b3", "s2", .obj [("id", .str "s2"), ("sessionToken", .str "tok2"),
          ("userId", .str "u2")], false⟩]),
      ("V", [⟨"b4", "v1", .obj [("id", .str "v1"), ("identifier", .str "a@b.com"),
          ("token", .str "t1"), ("userId", .str "u1")], true⟩])], 0,
      [("U", "b1"), ("S", "b2"), ("V", "b4")]⟩
    rfl

end BTCPay
